import Mathlib

/-!
Verification of the paymentasia-mock-server core against its specification.

The development shallowly embeds the TypeScript sources:
* `Sha512` — the SHA-512 digest used by `crypto.createHash('sha512')`
  (`src/services/signature.service.ts` delegates hashing to this library
  primitive; it is embedded bit-faithfully so that signature claims are
  decidable on concrete inputs).
* `Sig` — `SignatureService.generateSignature` / `verifySignature`,
  including Node's `querystring.stringify` percent-encoding and JavaScript's
  object key-enumeration order.
* `Scenario` — `ScenarioService` (outcome rules, `setScenario`).
* `Lifecycle` — the scheduled status transitions of
  `POST /app/page/:merchantToken` (`payment-query.route.ts`).
* `Callback` — `CallbackService.sendCallback` retry loop.
* `Query` — `PaymentService.getTransactionsByMerchantReference`.
-/

set_option maxRecDepth 100000

namespace Sha512

/-- 2^64, the word modulus of SHA-512. -/
def M64 : Nat := 18446744073709551616

/-- Right rotation of a 64-bit word. -/
def rotr (n x : Nat) : Nat := ((x >>> n) ||| (x <<< (64 - n))) % M64

/-- Bitwise complement of a 64-bit word. -/
def bnot (x : Nat) : Nat := x ^^^ (M64 - 1)

def bigSigma0 (x : Nat) : Nat := rotr 28 x ^^^ rotr 34 x ^^^ rotr 39 x
def bigSigma1 (x : Nat) : Nat := rotr 14 x ^^^ rotr 18 x ^^^ rotr 41 x
def smallSigma0 (x : Nat) : Nat := rotr 1 x ^^^ rotr 8 x ^^^ (x >>> 7)
def smallSigma1 (x : Nat) : Nat := rotr 19 x ^^^ rotr 61 x ^^^ (x >>> 6)
def ch (x y z : Nat) : Nat := (x &&& y) ^^^ (bnot x &&& z)
def maj (x y z : Nat) : Nat := (x &&& y) ^^^ (x &&& z) ^^^ (y &&& z)

/-- The eighty SHA-512 round constants (FIPS 180-4). -/
def K : List Nat := [
  4794697086780616226, 8158064640168781261, 13096744586834688815, 16840607885511220156,
  4131703408338449720, 6480981068601479193, 10538285296894168987, 12329834152419229976,
  15566598209576043074, 1334009975649890238, 2608012711638119052, 6128411473006802146,
  8268148722764581231, 9286055187155687089, 11230858885718282805, 13951009754708518548,
  16472876342353939154, 17275323862435702243, 1135362057144423861, 2597628984639134821,
  3308224258029322869, 5365058923640841347, 6679025012923562964, 8573033837759648693,
  10970295158949994411, 12119686244451234320, 12683024718118986047, 13788192230050041572,
  14330467153632333762, 15395433587784984357, 489312712824947311, 1452737877330783856,
  2861767655752347644, 3322285676063803686, 5560940570517711597, 5996557281743188959,
  7280758554555802590, 8532644243296465576, 9350256976987008742, 10552545826968843579,
  11727347734174303076, 12113106623233404929, 14000437183269869457, 14369950271660146224,
  15101387698204529176, 15463397548674623760, 17586052441742319658, 1182934255886127544,
  1847814050463011016, 2177327727835720531, 2830643537854262169, 3796741975233480872,
  4115178125766777443, 5681478168544905931, 6601373596472566643, 7507060721942968483,
  8399075790359081724, 8693463985226723168, 9568029438360202098, 10144078919501101548,
  10430055236837252648, 11840083180663258601, 13761210420658862357, 14299343276471374635,
  14566680578165727644, 15097957966210449927, 16922976911328602910, 17689382322260857208,
  500013540394364858, 748580250866718886, 1242879168328830382, 1977374033974150939,
  2944078676154940804, 3659926193048069267, 4368137639120453308, 4836135668995329356,
  5532061633213252278, 6448918945643986474, 6902733635092675308, 7801388544844847127]

/-- SHA-512 working state: eight 64-bit words. -/
structure Hash where
  a : Nat
  b : Nat
  c : Nat
  d : Nat
  e : Nat
  f : Nat
  g : Nat
  h : Nat
deriving Repr, DecidableEq

/-- The SHA-512 initial hash value (FIPS 180-4). -/
def H0 : Hash :=
  ⟨7640891576956012808, 13503953896175478587, 4354685564936845355, 11912009170470909681,
   5840696475078001361, 11170449401992604703, 2270897969802886507, 6620516959819538809⟩

/-- `n`-byte big-endian rendering of `v`. -/
def beBytes (n v : Nat) : List Nat :=
  (List.range n).map fun i => (v >>> (8 * (n - 1 - i))) % 256

/-- SHA-512 message padding: append `0x80`, zeros, and the 128-bit
big-endian bit length, reaching a multiple of 128 bytes. -/
def pad (m : List Nat) : List Nat :=
  m ++ [0x80] ++ List.replicate ((239 - m.length % 128) % 128) 0
    ++ beBytes 16 (8 * m.length)

/-- Split a byte list into 128-byte blocks (fuel-based so that it reduces
definitionally; `fuel = l.length` always suffices). -/
def chunksAux (fuel : Nat) (l : List Nat) : List (List Nat) :=
  match fuel, l with
  | 0, _ => []
  | _, [] => []
  | Nat.succ f, l => l.take 128 :: chunksAux f (l.drop 128)

/-- Split a byte list into 128-byte blocks. -/
def chunks (l : List Nat) : List (List Nat) := chunksAux l.length l

/-- Big-endian 64-bit word from a byte list. -/
def beWord (bytes : List Nat) : Nat := bytes.foldl (fun a x => a * 256 + x) 0

/-- The sixteen message words of one block. -/
def wordsOfBlock (b : List Nat) : List Nat :=
  (List.range 16).map fun i => beWord ((b.drop (8 * i)).take 8)

/-- One message-schedule extension step. -/
def extendStep (w : List Nat) : List Nat :=
  let n := w.length
  w ++ [(smallSigma1 (w.getD (n - 2) 0) + w.getD (n - 7) 0 +
         smallSigma0 (w.getD (n - 15) 0) + w.getD (n - 16) 0) % M64]

/-- The eighty-word message schedule of a block. -/
def schedule (w16 : List Nat) : List Nat :=
  (List.range 64).foldl (fun w _ => extendStep w) w16

/-- One SHA-512 round. -/
def round (st : Hash) (kw : Nat × Nat) : Hash :=
  let t1 := (st.h + bigSigma1 st.e + ch st.e st.f st.g + kw.1 + kw.2) % M64
  let t2 := (bigSigma0 st.a + maj st.a st.b st.c) % M64
  ⟨(t1 + t2) % M64, st.a, st.b, st.c, (st.d + t1) % M64, st.e, st.f, st.g⟩

/-- Compress one 128-byte block into the state. -/
def compress (st : Hash) (block : List Nat) : Hash :=
  let w := schedule (wordsOfBlock block)
  let r := (K.zip w).foldl round st
  ⟨(st.a + r.a) % M64, (st.b + r.b) % M64, (st.c + r.c) % M64, (st.d + r.d) % M64,
   (st.e + r.e) % M64, (st.f + r.f) % M64, (st.g + r.g) % M64, (st.h + r.h) % M64⟩

/-- SHA-512 of a byte sequence, as the 512-bit digest value. -/
def digestNat (msg : List Nat) : Nat :=
  let st := (chunks (pad msg)).foldl compress H0
  [st.a, st.b, st.c, st.d, st.e, st.f, st.g, st.h].foldl (fun acc w => acc * M64 + w) 0

/-- Lowercase hexadecimal digit. -/
def hexChar (n : Nat) : Char :=
  if n < 10 then Char.ofNat (48 + n) else Char.ofNat (87 + n)

/-- Fixed-width lowercase hexadecimal rendering of `v` with `len` digits. -/
def hexOfNat (len v : Nat) : List Char :=
  (List.range len).map fun i => hexChar ((v >>> (4 * (len - 1 - i))) % 16)

/-- UTF-8 encoding of one character. -/
def utf8Char (c : Char) : List Nat :=
  let n := c.toNat
  if n < 0x80 then [n]
  else if n < 0x800 then [0xC0 + n / 64, 0x80 + n % 64]
  else if n < 0x10000 then
    [0xE0 + n / 4096, 0x80 + n / 64 % 64, 0x80 + n % 64]
  else
    [0xF0 + n / 262144, 0x80 + n / 4096 % 64, 0x80 + n / 64 % 64, 0x80 + n % 64]

/-- UTF-8 byte sequence of a string (Node hashes strings as UTF-8). -/
def utf8 (s : String) : List Nat :=
  s.data.foldr (fun c acc => utf8Char c ++ acc) []

/-- SHA-512 of a string, rendered as 128 lowercase hex characters, exactly
as `crypto.createHash('sha512').update(s).digest('hex')`. -/
def sha512hex (s : String) : String :=
  String.mk (hexOfNat 128 (digestNat (utf8 s)))

/-- All eight state words below 2^64. -/
def Bounded (st : Hash) : Prop :=
  st.a < M64 ∧ st.b < M64 ∧ st.c < M64 ∧ st.d < M64 ∧
  st.e < M64 ∧ st.f < M64 ∧ st.g < M64 ∧ st.h < M64

example : sha512hex "abc" =
    "ddaf35a193617abacc417349ae20413112e6fa4e89a97ea20a9eeee64b55d39a2192992a274fc1a836ba3c23a3feebbd454d4423643ce80e2a9ac94fa54ca49f" := by
  decide

example : sha512hex "" =
    "cf83e1357eefb8bdf1542850d66d8007d620e4050b5715dc83f4a921d36ce9ce47d0d13c5d85f2b0ff8318d2877eec2f63b931bd47417a81a538327af927da3e" := by
  decide

end Sha512

namespace Sig

/-- A `Record<string,string>` field map, as an association list with
distinct keys (JavaScript object own-property entries). -/
abbrev Fields := List (String × String)

/-- Strict lexicographic order on lists of naturals. -/
def lexLt : List Nat → List Nat → Bool
  | [], [] => false
  | [], _ :: _ => true
  | _ :: _, [] => false
  | x :: xs, y :: ys => x.blt y || (x.beq y && lexLt xs ys)

/-- UTF-16 code units of one character (JavaScript string element order). -/
def utf16Char (c : Char) : List Nat :=
  let n := c.toNat
  if n < 0x10000 then [n]
  else [0xD800 + (n - 0x10000) / 0x400, 0xDC00 + (n - 0x10000) % 0x400]

/-- UTF-16 code-unit sequence of a string. -/
def utf16 (s : String) : List Nat :=
  s.data.foldr (fun c acc => utf16Char c ++ acc) []

/-- JavaScript's default string comparison (`a < b` on UTF-16 code units),
used by `Array.prototype.sort()` in `SignatureService.sortFields`. -/
def jsLt (a b : String) : Bool := lexLt (utf16 a) (utf16 b)

/-- Byte-wise (UTF-8) lexicographic comparison — the order named by the
spec ("byte-wise ascending"). -/
def byteLt (a b : String) : Bool := lexLt (Sha512.utf8 a) (Sha512.utf8 b)

/-- Insert into a sorted list using a strict comparison. -/
def insertBy (lt : α → α → Bool) (x : α) : List α → List α
  | [] => [x]
  | y :: ys => if lt x y then x :: y :: ys else y :: insertBy lt x ys

/-- Insertion sort; on distinct keys it yields the unique ascending order,
matching `Array.prototype.sort` with the default comparator. -/
def sortBy (lt : α → α → Bool) : List α → List α
  | [] => []
  | x :: xs => insertBy lt x (sortBy lt xs)

/-- Numeric value of a digit string. -/
def natOfDigits (s : String) : Nat :=
  s.data.foldl (fun a c => a * 10 + (c.toNat - 48)) 0

/-- ECMAScript array-index property name: a canonical numeric string whose
value is below 2^32 − 1. Such keys are enumerated first, in ascending
numeric order, by `Object.keys` — regardless of insertion order. -/
def isArrayIndex (s : String) : Bool :=
  !s.isEmpty && s.data.all Char.isDigit &&
    (s == "0" || s.data.head? != some '0') && natOfDigits s < 4294967295

/-- `Object.keys` enumeration order of an object whose properties were
inserted in the order `ks`: array-index keys numerically ascending first,
then the remaining keys in insertion order. -/
def objectKeys (ks : List String) : List String :=
  sortBy (fun a b => (natOfDigits a).blt (natOfDigits b)) (ks.filter isArrayIndex)
    ++ ks.filter (fun k => !isArrayIndex k)

/-- Bytes left unescaped by `querystring.escape`: alphanumerics and
`! ' ( ) * - . _ ~`. -/
def unreservedByte (b : Nat) : Bool :=
  (decide (48 ≤ b) && decide (b ≤ 57)) || (decide (65 ≤ b) && decide (b ≤ 90)) ||
  (decide (97 ≤ b) && decide (b ≤ 122)) ||
  b == 33 || b == 39 || b == 40 || b == 41 || b == 42 ||
  b == 45 || b == 46 || b == 95 || b == 126

/-- Uppercase hexadecimal digit (percent-escapes use uppercase hex). -/
def hexUpperChar (n : Nat) : Char :=
  if n < 10 then Char.ofNat (48 + n) else Char.ofNat (55 + n)

/-- Percent-encoding of one UTF-8 byte. -/
def escapeByte (b : Nat) : List Char :=
  if unreservedByte b then [Char.ofNat b]
  else ['%', hexUpperChar (b / 16), hexUpperChar (b % 16)]

/-- `querystring.escape`: percent-encode the UTF-8 bytes of a string
(space becomes `%20`, never `+`). -/
def escape (s : String) : String :=
  String.mk ((Sha512.utf8 s).foldr (fun b acc => escapeByte b ++ acc) [])

/-- One `key=value` component of `querystring.stringify`. -/
def entryString (fields : Fields) (k : String) : String :=
  escape k ++ "=" ++ escape ((fields.lookup k).getD "")

/-- Join components with `&`. -/
def joinAmp : List String → String
  | [] => ""
  | [x] => x
  | x :: y :: ys => x ++ "&" ++ joinAmp (y :: ys)

/-- `stringify(this.sortFields(fields))` in
`SignatureService.generateSignature`: keys are sorted with JavaScript's
default sort, re-inserted into a fresh object (so array-index keys are
enumerated numerically first), then serialized as
`key1=value1&key2=value2&...` with `querystring` percent-encoding. -/
def queryString (fields : Fields) : String :=
  joinAmp ((objectKeys (sortBy jsLt (fields.map Prod.fst))).map (entryString fields))

/-- The string that is hashed: serialized fields with the raw secret
appended (no separator). -/
def signatureBase (fields : Fields) (secret : String) : String :=
  queryString fields ++ secret

/-- `SignatureService.generateSignature`. -/
def generateSignature (fields : Fields) (secret : String) : String :=
  Sha512.sha512hex (signatureBase fields secret)

/-- `SignatureService.verifySignature`: recompute and compare for
equality. -/
def verifySignature (fields : Fields) (receivedSign secret : String) : Bool :=
  generateSignature fields secret == receivedSign

/-- The serialization the spec describes (spec §4.1, for the refinement
comparison): entries sorted by key in byte-wise ascending order, same
percent-encoding, no object-key reordering. -/
def specQueryString (fields : Fields) : String :=
  joinAmp ((sortBy byteLt (fields.map Prod.fst)).map (entryString fields))

/-- The spec's digest input: byte-wise-sorted serialization, raw secret
appended. -/
def specSignatureBase (fields : Fields) (secret : String) : String :=
  specQueryString fields ++ secret

example :
    queryString [("z_last", "value3"), ("a_first", "value1"), ("m_middle", "value2")] =
      "a_first=value1&m_middle=value2&z_last=value3" := by decide

example : escape "test@example.com" = "test%40example.com" := by decide

example : escape "Test Payment" = "Test%20Payment" := by decide

example : queryString [] = "" := by decide

example : queryString [("10", "a"), ("2", "b")] = "2=b&10=a" := by decide

example : specQueryString [("10", "a"), ("2", "b")] = "10=a&2=b" := by decide

end Sig

namespace Scenario

inductive DefaultOutcome
  | SUCCESS
  | FAIL
  | RANDOM
deriving DecidableEq, Repr

inductive RuleOutcome
  | SUCCESS
  | FAIL
deriving DecidableEq, Repr

inductive RuleCondition
  | amount_ends_with
  | amount_equals
  | network
deriving DecidableEq, Repr

/-- `ScenarioRule` of `payment.types.ts`. -/
structure ScenarioRule where
  condition : RuleCondition
  value : String
  outcome : RuleOutcome
deriving DecidableEq, Repr

/-- `ScenarioConfig` of `payment.types.ts`. Delays are JavaScript numbers
holding integral millisecond counts. -/
structure ScenarioConfig where
  defaultOutcome : DefaultOutcome
  callbackDelay : Int
  processingDelay : Int
  rules : List ScenarioRule
deriving DecidableEq, Repr

/-- JavaScript `String.prototype.endsWith` (suffix test). -/
def jsEndsWith (s suffix : String) : Bool :=
  suffix.data.isSuffixOf s.data

/-- `ScenarioService.ruleMatches`. -/
def ruleMatches (rule : ScenarioRule) (amount network : String) : Bool :=
  match rule.condition with
  | .amount_ends_with => jsEndsWith amount rule.value
  | .amount_equals => amount == rule.value
  | .network => network == rule.value

/-- The for-loop of `getOutcomeForTransaction`: the first matching rule. -/
def firstMatch (rules : List ScenarioRule) (amount network : String) :
    Option ScenarioRule :=
  match rules with
  | [] => none
  | r :: rs =>
    if ruleMatches r amount network then some r else firstMatch rs amount network

def outcomeChar : RuleOutcome → String
  | .SUCCESS => "1"
  | .FAIL => "2"

/-- `ScenarioService.getOutcomeForTransaction`. The impure draw
`Math.random() > 0.5` is passed in as the boolean `randomGtHalf`; the
`merchantToken` parameter is accepted and ignored exactly as in the
source. -/
def getOutcomeForTransaction (cfg : ScenarioConfig) (randomGtHalf : Bool)
    (amount network _merchantToken : String) : String :=
  match firstMatch cfg.rules amount network with
  | some r => outcomeChar r.outcome
  | none =>
    match cfg.defaultOutcome with
    | .RANDOM => if randomGtHalf then "1" else "2"
    | .SUCCESS => "1"
    | .FAIL => "2"

/-- A `Partial<ScenarioConfig>` reconfiguration request: exactly the
fields present in the request body carry a value. -/
structure ScenarioPatch where
  defaultOutcome : Option DefaultOutcome := none
  callbackDelay : Option Int := none
  processingDelay : Option Int := none
  rules : Option (List ScenarioRule) := none
deriving DecidableEq, Repr

/-- `ScenarioService.setScenario`: object spread
`{ ...this.scenarioConfig, ...scenario }` — present fields override,
absent fields keep the previous value. -/
def setScenario (cfg : ScenarioConfig) (p : ScenarioPatch) : ScenarioConfig :=
  { defaultOutcome := p.defaultOutcome.getD cfg.defaultOutcome
    callbackDelay := p.callbackDelay.getD cfg.callbackDelay
    processingDelay := p.processingDelay.getD cfg.processingDelay
    rules := p.rules.getD cfg.rules }

/-- `ScenarioService.addRule` (push appends at the end). -/
def addRule (cfg : ScenarioConfig) (r : ScenarioRule) : ScenarioConfig :=
  { cfg with rules := cfg.rules ++ [r] }

/-- `ScenarioService.clearRules`. -/
def clearRules (cfg : ScenarioConfig) : ScenarioConfig :=
  { cfg with rules := [] }

end Scenario

namespace Lifecycle

/-- The env-derived static `config.payment` of `config.ts`: parsed once at
process start and never mutated. -/
structure PaymentEnvConfig where
  processingDelay : Int
  callbackDelay : Int
deriving DecidableEq, Repr

/-- Node.js `setTimeout` delay semantics: a delay below 1 ms or above
2147483647 ms is replaced by 1 ms. The route passes the raw arithmetic
results to `setTimeout`; this function is the runtime's interpretation of
them. -/
def nodeTimeout (d : Int) : Nat :=
  if d < 1 ∨ 2147483647 < d then 1 else d.toNat

/-- Time (ms after creation) at which the first scheduled task fires and
sets the status to PROCESSING (`setTimeout(..., config.payment.processingDelay)`). -/
def processingFireTime (env : PaymentEnvConfig) : Nat :=
  nodeTimeout env.processingDelay

/-- The raw delay expression
`config.payment.callbackDelay - config.payment.processingDelay` handed to
the inner `setTimeout`. -/
def terminalDelayExpr (env : PaymentEnvConfig) : Int :=
  env.callbackDelay - env.processingDelay

/-- Effective delay of the inner `setTimeout` after Node clamping. -/
def terminalDelayUsed (env : PaymentEnvConfig) : Nat :=
  nodeTimeout (terminalDelayExpr env)

/-- Time at which the terminal status is written: the inner timer is
scheduled from within the first task. -/
def terminalFireTime (env : PaymentEnvConfig) : Nat :=
  processingFireTime env + terminalDelayUsed env

/-- The outcome decision (`paymentService.determinePaymentOutcome`) runs
inside the FIRST scheduled task, immediately after the PROCESSING write —
i.e. when `processingDelay` elapses, not at the terminal transition. -/
def decisionTime (env : PaymentEnvConfig) : Nat :=
  processingFireTime env

/-- The terminal status value: the outcome engine consulted with the
scenario configuration current at decision time
(`scenarioAt : Nat → ScenarioConfig` gives the mutable process-wide
configuration as a function of time). -/
def finalStatus (env : PaymentEnvConfig) (scenarioAt : Nat → Scenario.ScenarioConfig)
    (randomGtHalf : Bool) (amount network merchantToken : String) : String :=
  Scenario.getOutcomeForTransaction (scenarioAt (decisionTime env)) randomGtHalf
    amount network merchantToken

/-- The transaction status over time, as produced by the two scheduled
tasks of the `POST /app/page/:merchantToken` handler: `"0"` (PENDING) from
creation, `"4"` (PROCESSING) from the first task, the decided terminal
value from the second task. -/
def statusAt (env : PaymentEnvConfig) (scenarioAt : Nat → Scenario.ScenarioConfig)
    (randomGtHalf : Bool) (amount network merchantToken : String) (t : Nat) : String :=
  if t < processingFireTime env then "0"
  else if t < terminalFireTime env then "4"
  else finalStatus env scenarioAt randomGtHalf amount network merchantToken

end Lifecycle

namespace Callback

/-- The callback-tracking state of a persisted transaction
(`callbackSent`, `callbackAttempts`); the last-attempt timestamp column is
not modelled (no claim mentions it). -/
structure CbTx where
  callbackSent : Bool
  callbackAttempts : Nat
deriving DecidableEq, Repr

/-- Observable result of one `sendCallback` invocation. -/
structure SendResult where
  ok : Bool
  tx : CbTx
  writes : List Nat
  posts : List Nat
  sleeps : List Nat
deriving DecidableEq, Repr

/-- `validateStatus: (status) => status === 200`: an attempt succeeds only
on exactly HTTP 200; `none` stands for a network error or timeout. -/
def attemptOk (resp : Option Nat) : Bool := resp == some 200

/-- The `while (attempt < maxAttempts)` loop of
`CallbackService.sendCallback`, with `fuel = maxAttempts − attempt`
remaining iterations. `responses n` is the delivery target's response to
the `n`-th POST. On success the update writes
`callbackSent: true, callbackAttempts: attempt`; on failure only
`callbackAttempts: attempt`, followed by a `2^attempt` second sleep if
another attempt remains. -/
def sendAux (responses : Nat → Option Nat) (merchantFound : Bool) :
    Nat → Nat → CbTx → SendResult
  | 0, _, tx => ⟨false, tx, [], [], []⟩
  | Nat.succ f, attempt, tx =>
    let a := attempt + 1
    if !merchantFound then ⟨false, tx, [], [], []⟩
    else if attemptOk (responses a) then
      let tx' : CbTx := ⟨true, a⟩
      ⟨true, tx', [a], [a], []⟩
    else
      let tx' : CbTx := ⟨tx.callbackSent, a⟩
      let rest := sendAux responses merchantFound f a tx'
      ⟨rest.ok, rest.tx, a :: rest.writes, a :: rest.posts,
        (if a < 3 then [2 ^ a * 1000] else []) ++ rest.sleeps⟩

/-- `CallbackService.sendCallback` (`maxAttempts = 3`, `attempt = 0`). -/
def sendCallback (responses : Nat → Option Nat) (merchantFound : Bool)
    (tx : CbTx) : SendResult :=
  sendAux responses merchantFound 3 0 tx

/-- `CallbackService.triggerCallbackManually` on a transaction that exists:
it re-fetches the record and delegates to `sendCallback` unconditionally
(no reset of any counter, but also no continuation from it). -/
def manualRetrigger (responses : Nat → Option Nat) (merchantFound : Bool)
    (tx : CbTx) : SendResult :=
  sendCallback responses merchantFound tx

end Callback

namespace Query

/-- Decimal digit value accumulator. -/
def natOfDigits (cs : List Char) : Nat :=
  cs.foldl (fun a c => a * 10 + (c.toNat - 48)) 0

/-- The validation gate for `amount`: `/^\d+\.\d{2}$/`
(`validation.middleware.ts`). -/
def isValidAmount (s : String) : Bool :=
  match s.data.reverse with
  | d2 :: d1 :: c :: rest =>
    d2.isDigit && d1.isDigit && c == '.' && !rest.isEmpty && rest.all Char.isDigit
  | _ => false

/-- Value of a two-decimal amount string in cents. -/
def centsOf (s : String) : Nat :=
  natOfDigits (s.data.filter (fun c => c != '.'))

/-- Two-digit zero-padded rendering. -/
def pad2 (n : Nat) : String :=
  (if n < 10 then "0" else "") ++ toString n

/-- `Decimal.prototype.toFixed n` (n ≥ 2) of the numeric value of a
validated two-decimal amount: the canonical decimal rendering (leading
zeros dropped) with `n` fractional digits. Modelled from the spec: the
Prisma schema is not part of the sources; per spec §3 the amount is
persisted as an exact decimal value, and `tx.amount.toFixed(n)` renders
that value. -/
def amountToFixed (s : String) (n : Nat) : String :=
  toString (centsOf s / 100) ++ "." ++ pad2 (centsOf s % 100) ++
    String.mk (List.replicate (n - 2) '0')

/-- A stored transaction row, restricted to the columns the query route
reads. `createdTimeMs`/`completedTimeMs` are `Date.getTime()` epoch
milliseconds. -/
structure Tx where
  merchantReference : String
  requestReference : String
  status : String
  currency : String
  amount : String
  type : String
  createdTimeMs : Nat
  completedTimeMs : Option Nat
deriving DecidableEq, Repr

/-- `PaymentService.createTransaction`: row inserted with status `'0'`
(PENDING), type `'Sale'`, the amount stored as supplied, and no completed
time. -/
def createTransaction (merchantReference currency amount : String)
    (requestReference : String) (nowMs : Nat) : Tx :=
  { merchantReference := merchantReference
    requestReference := requestReference
    status := "0"
    currency := currency
    amount := amount
    type := "Sale"
    createdTimeMs := nowMs
    completedTimeMs := none }

/-- JSON values as serialized by `res.json`. -/
inductive Json
  | str (s : String)
  | num (n : Nat)
  | null
deriving DecidableEq, Repr

/-- The record `getTransactionsByMerchantReference` maps each row to:
times are `Math.floor(getTime() / 1000).toString()` — decimal STRINGS of
epoch seconds. -/
def codeQueryRecord (tx : Tx) : List (String × Json) :=
  [("type", .str tx.type),
   ("merchant_reference", .str tx.merchantReference),
   ("request_reference", .str tx.requestReference),
   ("status", .str tx.status),
   ("currency", .str tx.currency),
   ("amount", .str (amountToFixed tx.amount 6)),
   ("created_time", .str (toString (tx.createdTimeMs / 1000))),
   ("completed_time",
     match tx.completedTimeMs with
     | some t => .str (toString (t / 1000))
     | none => .null)]

/-- Modelled from the spec: the record shape of §6 ("created_time and
completed_time as Unix-epoch-second integers"), i.e. the times are JSON
integers rather than strings. For the refinement comparison only. -/
def specQueryRecord (tx : Tx) : List (String × Json) :=
  [("type", .str tx.type),
   ("merchant_reference", .str tx.merchantReference),
   ("request_reference", .str tx.requestReference),
   ("status", .str tx.status),
   ("currency", .str tx.currency),
   ("amount", .str (amountToFixed tx.amount 6)),
   ("created_time", .num (tx.createdTimeMs / 1000)),
   ("completed_time",
     match tx.completedTimeMs with
     | some t => .num (t / 1000)
     | none => .null)]

/-- `prisma.transaction.findMany({ where: { merchantReference }, orderBy:
{ createdTime: 'asc' } })` over a modelled table: filter, then stable sort
ascending by creation time. -/
def findManyByRef (db : List Tx) (ref : String) : List Tx :=
  Sig.sortBy (fun a b => a.createdTimeMs.ble b.createdTimeMs)
    (db.filter (fun t => t.merchantReference == ref))

/-- `PaymentService.getTransactionsByMerchantReference`. -/
def paymentQuery (db : List Tx) (ref : String) : List (List (String × Json)) :=
  (findManyByRef db ref).map codeQueryRecord

/-- Modelled from the spec: the same query with the spec's record shape. -/
def specPaymentQuery (db : List Tx) (ref : String) : List (List (String × Json)) :=
  (findManyByRef db ref).map specQueryRecord

/-- Modelled from the spec, amended: the §6 record shape with
`created_time`/`completed_time` as decimal strings of Unix-epoch seconds
(which is what the route serializes). -/
def specQueryRecordStr (tx : Tx) : List (String × Json) :=
  [("type", .str tx.type),
   ("merchant_reference", .str tx.merchantReference),
   ("request_reference", .str tx.requestReference),
   ("status", .str tx.status),
   ("currency", .str tx.currency),
   ("amount", .str (amountToFixed tx.amount 6)),
   ("created_time", .str (toString (tx.createdTimeMs / 1000))),
   ("completed_time",
     match tx.completedTimeMs with
     | some t => .str (toString (t / 1000))
     | none => .null)]

/-- The amended query contract: filtered rows ascending by creation time,
mapped to the string-time record shape. -/
def specPaymentQueryStr (db : List Tx) (ref : String) : List (List (String × Json)) :=
  (findManyByRef db ref).map specQueryRecordStr

example : amountToFixed "100.00" 6 = "100.000000" := by decide

example : amountToFixed "99.99" 2 = "99.99" := by decide

end Query

namespace Sig

/-- An ASCII-only string. -/
def isAscii (s : String) : Bool :=
  s.data.all fun c => decide (c.toNat < 128)

/-- UTF-8 decoder, fuel-based (left inverse of `Sha512.utf8` on encoded
streams; used only to prove injectivity of the encoding; `fuel = length`
always suffices). -/
def utf8DecodeAux : Nat → List Nat → List Char
  | 0, _ => []
  | _, [] => []
  | Nat.succ f, b0 :: rest =>
    if b0 < 0x80 then Char.ofNat b0 :: utf8DecodeAux f rest
    else if b0 < 0xE0 then
      Char.ofNat ((b0 - 0xC0) * 64 + (rest.headD 0 - 0x80)) ::
        utf8DecodeAux f (rest.drop 1)
    else if b0 < 0xF0 then
      Char.ofNat ((b0 - 0xE0) * 4096 + (rest.headD 0 - 0x80) * 64 +
        ((rest.drop 1).headD 0 - 0x80)) :: utf8DecodeAux f (rest.drop 2)
    else
      Char.ofNat ((b0 - 0xF0) * 262144 + (rest.headD 0 - 0x80) * 4096 +
        ((rest.drop 1).headD 0 - 0x80) * 64 + ((rest.drop 2).headD 0 - 0x80)) ::
        utf8DecodeAux f (rest.drop 3)

/-- UTF-8 decoder. -/
def utf8Decode (l : List Nat) : List Char := utf8DecodeAux l.length l

/-- Value of an uppercase hexadecimal digit. -/
def hexVal (c : Char) : Nat :=
  if c.toNat < 65 then c.toNat - 48 else c.toNat - 55

/-- Percent-decoding, fuel-based (left inverse of the byte-wise escape;
used only to prove injectivity). -/
def unescapeAux : Nat → List Char → List Nat
  | 0, _ => []
  | _, [] => []
  | Nat.succ f, c :: rest =>
    if c == '%' then
      (hexVal (rest.headD '0') * 16 + hexVal ((rest.drop 1).headD '0')) ::
        unescapeAux f (rest.drop 2)
    else c.toNat :: unescapeAux f rest

/-- Percent-decoding. -/
def unescapeChars (l : List Char) : List Nat := unescapeAux l.length l

/-- The claim of C3 as stated: round-trip verification succeeds, and
verification fails after mutating any field value (same key set, different
association list) or with a different secret. -/
def claimC3 : Prop :=
  ∀ (fields : Fields) (secret : String),
    verifySignature fields (generateSignature fields secret) secret = true ∧
    (∀ fields' : Fields, fields'.map Prod.fst = fields.map Prod.fst → fields' ≠ fields →
      verifySignature fields' (generateSignature fields secret) secret = false) ∧
    (∀ secret' : String, secret' ≠ secret →
      verifySignature fields (generateSignature fields secret) secret' = false)

end Sig

namespace Lifecycle

/-- Modelled from the spec (claim C8): the processing delay as it would be
if every Lifecycle Controller invocation read it from the process-wide
mutable `OutcomeConfiguration` at decision time — the scenario
configuration current at creation schedules the PROCESSING transition. -/
def claimedProcessingFireTime (scenarioAt : Nat → Scenario.ScenarioConfig) : Nat :=
  nodeTimeout (scenarioAt 0).processingDelay

/-- Modelled from the spec (claim C8): the terminal transition scheduled
from the mutable configuration read when the first task fires. -/
def claimedTerminalFireTime (scenarioAt : Nat → Scenario.ScenarioConfig) : Nat :=
  let t1 := claimedProcessingFireTime scenarioAt
  t1 + nodeTimeout ((scenarioAt t1).callbackDelay - (scenarioAt t1).processingDelay)

/-- Modelled from the spec (claim C8): the status timeline under the
claimed behaviour in which the delays, too, come from the mutable
configuration. -/
def claimedStatusAt (scenarioAt : Nat → Scenario.ScenarioConfig)
    (randomGtHalf : Bool) (amount network merchantToken : String) (t : Nat) : String :=
  if t < claimedProcessingFireTime scenarioAt then "0"
  else if t < claimedTerminalFireTime scenarioAt then "4"
  else
    Scenario.getOutcomeForTransaction (scenarioAt (claimedProcessingFireTime scenarioAt))
      randomGtHalf amount network merchantToken

end Lifecycle

/-! ## Shared lemmas about the insertion sort used in the embeddings -/

namespace Sig

theorem insertBy_perm (lt : α → α → Bool) (x : α) (l : List α) :
    (insertBy lt x l).Perm (x :: l) := by
  induction l with
  | nil => exact List.Perm.refl _
  | cons y ys ih =>
    simp only [insertBy]
    split
    · exact List.Perm.refl _
    · exact (ih.cons y).trans (List.Perm.swap x y ys)

theorem sortBy_perm (lt : α → α → Bool) (l : List α) :
    (sortBy lt l).Perm l := by
  induction l with
  | nil => exact List.Perm.refl _
  | cons x xs ih => exact (insertBy_perm lt x (sortBy lt xs)).trans (ih.cons x)

theorem mem_sortBy {lt : α → α → Bool} {l : List α} {a : α} :
    a ∈ sortBy lt l ↔ a ∈ l :=
  (sortBy_perm lt l).mem_iff

theorem insertBy_congr (lt₁ lt₂ : α → α → Bool) (x : α) (l : List α)
    (h : ∀ y ∈ l, lt₁ x y = lt₂ x y) : insertBy lt₁ x l = insertBy lt₂ x l := by
  induction l with
  | nil => rfl
  | cons y ys ih =>
    simp only [insertBy, h y (List.mem_cons_self y ys)]
    split
    · rfl
    · rw [ih fun z hz => h z (List.mem_cons_of_mem y hz)]

theorem sortBy_congr {lt₁ lt₂ : α → α → Bool} {l : List α}
    (h : ∀ x ∈ l, ∀ y ∈ l, lt₁ x y = lt₂ x y) : sortBy lt₁ l = sortBy lt₂ l := by
  induction l with
  | nil => rfl
  | cons x xs ih =>
    simp only [sortBy]
    rw [ih fun a ha b hb =>
      h a (List.mem_cons_of_mem x ha) b (List.mem_cons_of_mem x hb)]
    exact insertBy_congr lt₁ lt₂ x _ fun y hy =>
      h x (List.mem_cons_self x xs) y
        (List.mem_cons_of_mem x (mem_sortBy.1 hy))

theorem chain'_insertBy {le : α → α → Bool}
    (total : ∀ a b, le a b = true ∨ le b a = true) (x : α) (l : List α)
    (h : List.Chain' (fun a b => le a b = true) l) :
    List.Chain' (fun a b => le a b = true) (insertBy le x l) := by
  induction l with
  | nil => simp [insertBy]
  | cons y ys ih =>
    simp only [insertBy]
    split
    · rename_i hxy
      exact List.chain'_cons'.2 ⟨fun b hb => by simp at hb; subst hb; exact hxy, h⟩
    · rename_i hxy
      have hyx : le y x = true := by
        rcases total x y with h1 | h1
        · exact absurd h1 hxy
        · exact h1
      have htail := ih (List.Chain'.tail h)
      refine List.chain'_cons'.2 ⟨?_, htail⟩
      intro b hb
      cases ys with
      | nil => simp [insertBy] at hb; subst hb; exact hyx
      | cons z zs =>
        simp only [insertBy] at hb
        split at hb
        · simp at hb; subst hb; exact hyx
        · simp at hb; subst hb
          exact (List.chain'_cons.1 h).1

theorem chain'_sortBy {le : α → α → Bool}
    (total : ∀ a b, le a b = true ∨ le b a = true) (l : List α) :
    List.Chain' (fun a b => le a b = true) (sortBy le l) := by
  induction l with
  | nil => simp [sortBy]
  | cons x xs ih => exact chain'_insertBy total x _ ih

end Sig

/-! ## C4 — outcome engine: first matching rule wins, default fallback -/

namespace Scenario

theorem firstMatch_eq_find? (rules : List ScenarioRule) (a n : String) :
    firstMatch rules a n = rules.find? (fun r => ruleMatches r a n) := by
  induction rules with
  | nil => rfl
  | cons r rs ih =>
    simp only [firstMatch, List.find?]
    cases h : ruleMatches r a n <;> simp [h, ih]

end Scenario

/-- C4: the engine returns the outcome of the first rule (in stored order)
whose condition matches; appending further rules after a match changes
nothing; with the two conflicting `.99` rules and amount `"99.99"` the
result is FAIL (`"2"`); and with no matching rule a non-RANDOM
`defaultOutcome` is returned directly for every input. -/
theorem c4_first_rule_wins_and_default_fallback :
    (∀ (cfg : Scenario.ScenarioConfig) (rnd : Bool) (amount network token : String)
        (r : Scenario.ScenarioRule),
        cfg.rules.find? (fun r0 => Scenario.ruleMatches r0 amount network) = some r →
        Scenario.getOutcomeForTransaction cfg rnd amount network token =
          Scenario.outcomeChar r.outcome) ∧
    (∀ (cfg : Scenario.ScenarioConfig) (rnd : Bool) (amount network token : String)
        (rest : List Scenario.ScenarioRule) (r : Scenario.ScenarioRule),
        cfg.rules.find? (fun r0 => Scenario.ruleMatches r0 amount network) = some r →
        Scenario.getOutcomeForTransaction { cfg with rules := cfg.rules ++ rest }
            rnd amount network token =
          Scenario.getOutcomeForTransaction cfg rnd amount network token) ∧
    (∀ (rnd : Bool) (token : String),
        Scenario.getOutcomeForTransaction
          ⟨.SUCCESS, 3000, 1000,
            [⟨.amount_ends_with, ".99", .FAIL⟩, ⟨.amount_ends_with, ".99", .SUCCESS⟩]⟩
          rnd "99.99" "Alipay" token = "2") ∧
    (∀ (cfg : Scenario.ScenarioConfig) (rnd : Bool) (amount network token : String),
        cfg.rules.find? (fun r0 => Scenario.ruleMatches r0 amount network) = none →
        (cfg.defaultOutcome = .SUCCESS →
          Scenario.getOutcomeForTransaction cfg rnd amount network token = "1") ∧
        (cfg.defaultOutcome = .FAIL →
          Scenario.getOutcomeForTransaction cfg rnd amount network token = "2")) := by
  have hfm := Scenario.firstMatch_eq_find?
  have happ : ∀ (rules rest : List Scenario.ScenarioRule) (a n : String)
      (r : Scenario.ScenarioRule),
      Scenario.firstMatch rules a n = some r →
      Scenario.firstMatch (rules ++ rest) a n = some r := by
    intro rules rest a n r h
    induction rules with
    | nil => exact absurd h (by simp [Scenario.firstMatch])
    | cons q qs ih =>
      simp only [Scenario.firstMatch, List.cons_append] at h ⊢
      cases hq : Scenario.ruleMatches q a n <;> simp [hq] at h ⊢
      · exact ih h
      · exact h
  refine ⟨?_, ?_, ?_, ?_⟩
  · intro cfg rnd amount network token r h
    simp [Scenario.getOutcomeForTransaction, hfm, h]
  · intro cfg rnd amount network token rest r h
    have h' : Scenario.firstMatch cfg.rules amount network = some r := by
      rw [hfm]; exact h
    simp [Scenario.getOutcomeForTransaction, happ cfg.rules rest amount network r h', h']
  · intro rnd token
    rfl
  · intro cfg rnd amount network token h
    constructor <;> intro hd <;>
      simp [Scenario.getOutcomeForTransaction, hfm, h, hd]

theorem c4_first_rule_wins_and_default_fallback_witness :
    Scenario.getOutcomeForTransaction
        ⟨.RANDOM, 0, 0, [⟨.network, "Alipay", .SUCCESS⟩]⟩ true "1.00" "Alipay" "t" = "1" ∧
    Scenario.getOutcomeForTransaction
        ⟨.RANDOM, 0, 0, [⟨.network, "Alipay", .SUCCESS⟩, ⟨.amount_equals, "1.00", .FAIL⟩]⟩
        true "1.00" "Alipay" "t" =
      Scenario.getOutcomeForTransaction
        ⟨.RANDOM, 0, 0, [⟨.network, "Alipay", .SUCCESS⟩]⟩ true "1.00" "Alipay" "t" ∧
    Scenario.getOutcomeForTransaction ⟨.FAIL, 0, 0, []⟩ true "1.00" "Alipay" "t" = "2" :=
  ⟨c4_first_rule_wins_and_default_fallback.1
      ⟨.RANDOM, 0, 0, [⟨.network, "Alipay", .SUCCESS⟩]⟩ true "1.00" "Alipay" "t"
      ⟨.network, "Alipay", .SUCCESS⟩ (by decide),
   c4_first_rule_wins_and_default_fallback.2.1
      ⟨.RANDOM, 0, 0, [⟨.network, "Alipay", .SUCCESS⟩]⟩ true "1.00" "Alipay" "t"
      [⟨.amount_equals, "1.00", .FAIL⟩] ⟨.network, "Alipay", .SUCCESS⟩ (by decide),
   (c4_first_rule_wins_and_default_fallback.2.2.2
      ⟨.FAIL, 0, 0, []⟩ true "1.00" "Alipay" "t" (by decide)).2 rfl⟩

/-! ## C10 — setScenario replaces exactly the present fields -/

/-- C10: `setScenario` overrides exactly the fields present in the patch
and keeps every omitted field of the configuration unchanged. -/
theorem c10_setScenario_partial_merge_frame :
    ∀ (cfg : Scenario.ScenarioConfig) (p : Scenario.ScenarioPatch),
      ((p.defaultOutcome = none →
          (Scenario.setScenario cfg p).defaultOutcome = cfg.defaultOutcome) ∧
       (∀ v, p.defaultOutcome = some v →
          (Scenario.setScenario cfg p).defaultOutcome = v)) ∧
      ((p.callbackDelay = none →
          (Scenario.setScenario cfg p).callbackDelay = cfg.callbackDelay) ∧
       (∀ v, p.callbackDelay = some v →
          (Scenario.setScenario cfg p).callbackDelay = v)) ∧
      ((p.processingDelay = none →
          (Scenario.setScenario cfg p).processingDelay = cfg.processingDelay) ∧
       (∀ v, p.processingDelay = some v →
          (Scenario.setScenario cfg p).processingDelay = v)) ∧
      ((p.rules = none → (Scenario.setScenario cfg p).rules = cfg.rules) ∧
       (∀ v, p.rules = some v → (Scenario.setScenario cfg p).rules = v)) := by
  intro cfg p
  refine ⟨⟨?_, ?_⟩, ⟨?_, ?_⟩, ⟨?_, ?_⟩, ⟨?_, ?_⟩⟩ <;>
    first
      | (intro h; simp [Scenario.setScenario, h])
      | (intro v h; simp [Scenario.setScenario, h])

theorem c10_setScenario_partial_merge_frame_witness :
    (Scenario.setScenario ⟨.SUCCESS, 3000, 1000, [⟨.network, "CUP", .FAIL⟩]⟩
        ⟨some .FAIL, none, none, none⟩).defaultOutcome = .FAIL ∧
    (Scenario.setScenario ⟨.SUCCESS, 3000, 1000, [⟨.network, "CUP", .FAIL⟩]⟩
        ⟨some .FAIL, none, none, none⟩).callbackDelay = 3000 ∧
    (Scenario.setScenario ⟨.SUCCESS, 3000, 1000, [⟨.network, "CUP", .FAIL⟩]⟩
        ⟨some .FAIL, none, none, none⟩).processingDelay = 1000 ∧
    (Scenario.setScenario ⟨.SUCCESS, 3000, 1000, [⟨.network, "CUP", .FAIL⟩]⟩
        ⟨some .FAIL, none, none, none⟩).rules = [⟨.network, "CUP", .FAIL⟩] :=
  ⟨(c10_setScenario_partial_merge_frame _ _).1.2 .FAIL rfl,
   (c10_setScenario_partial_merge_frame _ _).2.1.1 rfl,
   (c10_setScenario_partial_merge_frame _ _).2.2.1.1 rfl,
   (c10_setScenario_partial_merge_frame _ _).2.2.2.1 rfl⟩

/-! ## C5 / C6 — webhook delivery retry loop -/

namespace Callback

theorem sendAux_ok_callbackSent (responses : Nat → Option Nat) (mf : Bool) :
    ∀ (fuel attempt : Nat) (tx : CbTx),
      (sendAux responses mf fuel attempt tx).ok = true →
      (sendAux responses mf fuel attempt tx).tx.callbackSent = true := by
  intro fuel
  induction fuel with
  | zero => intro attempt tx h; simp [sendAux] at h
  | succ f ih =>
    intro attempt tx h
    simp only [sendAux] at h ⊢
    by_cases hm : (!mf) = true
    · rw [if_pos hm] at h
      simp at h
    · rw [if_neg hm] at h ⊢
      by_cases hk : attemptOk (responses (attempt + 1)) = true
      · rw [if_pos hk]
      · rw [if_neg hk] at h ⊢
        exact ih (attempt + 1) _ h

theorem sendAux_writes_range (responses : Nat → Option Nat) :
    ∀ (fuel attempt : Nat) (tx : CbTx),
      (sendAux responses true fuel attempt tx).writes =
        List.range' (attempt + 1) (sendAux responses true fuel attempt tx).writes.length := by
  intro fuel
  induction fuel with
  | zero => intro attempt tx; rfl
  | succ f ih =>
    intro attempt tx
    simp only [sendAux, Bool.not_true]
    split
    · rename_i h
      simp at h
    · split
      · rfl
      · simp only [List.length_cons, List.range'_succ, List.cons.injEq, true_and]
        exact ih (attempt + 1) _

theorem sendAux_writes_indep (responses : Nat → Option Nat) (mf : Bool) :
    ∀ (fuel attempt : Nat) (tx tx' : CbTx),
      (sendAux responses mf fuel attempt tx).writes =
        (sendAux responses mf fuel attempt tx').writes := by
  intro fuel
  induction fuel with
  | zero => intro attempt tx tx'; rfl
  | succ f ih =>
    intro attempt tx tx'
    simp only [sendAux]
    split
    · rfl
    · split
      · rfl
      · simp only [List.cons.injEq, true_and]
        exact ih (attempt + 1) _ _

end Callback

/-- C5: against a target that never answers exactly HTTP 200, `sendCallback`
makes exactly 3 POST attempts, persists attempt counts 1,2,3, sleeps
2^1·1000 = 2000 ms then 2^2·1000 = 4000 ms between attempts, returns
false and leaves `callbackSent` false; and any invocation that returns
true has set `callbackSent` to true. -/
theorem c5_delivery_attempt_bound :
    (∀ (responses : Nat → Option Nat) (tx : Callback.CbTx),
        (∀ n, responses n ≠ some 200) → tx.callbackSent = false →
        Callback.sendCallback responses true tx =
          ⟨false, ⟨false, 3⟩, [1, 2, 3], [1, 2, 3], [2000, 4000]⟩) ∧
    (∀ (responses : Nat → Option Nat) (merchantFound : Bool) (tx : Callback.CbTx),
        (Callback.sendCallback responses merchantFound tx).ok = true →
        (Callback.sendCallback responses merchantFound tx).tx.callbackSent = true) := by
  constructor
  · intro responses tx h htx
    have hf : ∀ n, Callback.attemptOk (responses n) = false := by
      intro n
      rw [Callback.attemptOk, beq_eq_false_iff_ne]
      exact h n
    simp [Callback.sendCallback, Callback.sendAux, hf, htx]
  · intro responses merchantFound tx
    exact Callback.sendAux_ok_callbackSent responses merchantFound 3 0 tx

theorem c5_delivery_attempt_bound_witness :
    Callback.sendCallback (fun _ => some 500) true ⟨false, 0⟩ =
      ⟨false, ⟨false, 3⟩, [1, 2, 3], [1, 2, 3], [2000, 4000]⟩ ∧
    (Callback.sendCallback (fun _ => some 200) true ⟨false, 0⟩).tx.callbackSent = true :=
  ⟨c5_delivery_attempt_bound.1 (fun _ => some 500) ⟨false, 0⟩ (fun _ => by simp) rfl,
   c5_delivery_attempt_bound.2 (fun _ => some 200) true ⟨false, 0⟩ (by decide)⟩

/-- C6 counterexample: after a fully failed delivery run the persisted
`callbackAttempts` is 3, and a manual re-trigger (which delegates to the
same `sendCallback`) writes the local attempt counter again starting at 1,
so the persisted sequence of counter values 1,2,3,1,2,3 is not
non-decreasing and the re-trigger does not continue from the previous
value (its first write is 1, not 4). -/
theorem c6_counterexample_attempts_decrease :
    (Callback.sendCallback (fun _ => some 500) true ⟨false, 0⟩).tx.callbackAttempts = 3 ∧
    ((Callback.sendCallback (fun _ => some 500) true ⟨false, 0⟩).writes ++
      (Callback.manualRetrigger (fun _ => some 500) true
        (Callback.sendCallback (fun _ => some 500) true ⟨false, 0⟩).tx).writes) =
      [1, 2, 3, 1, 2, 3] ∧
    ¬ List.Chain' (fun a b => a ≤ b)
      ((Callback.sendCallback (fun _ => some 500) true ⟨false, 0⟩).writes ++
        (Callback.manualRetrigger (fun _ => some 500) true
          (Callback.sendCallback (fun _ => some 500) true ⟨false, 0⟩).tx).writes) ∧
    (Callback.manualRetrigger (fun _ => some 500) true
        (Callback.sendCallback (fun _ => some 500) true ⟨false, 0⟩).tx).writes.head? =
      some 1 := by
  refine ⟨by decide, by decide, ?_, by decide⟩
  have hl : ((Callback.sendCallback (fun _ => some 500) true ⟨false, 0⟩).writes ++
      (Callback.manualRetrigger (fun _ => some 500) true
        (Callback.sendCallback (fun _ => some 500) true ⟨false, 0⟩).tx).writes) =
      [1, 2, 3, 1, 2, 3] := by decide
  rw [hl]
  simp [List.chain'_cons]

/-- C6 amended: within one delivery invocation the persisted counter
values are exactly 1, 2, …, k (strictly increasing, never 0); a new
invocation's writes are identical regardless of the previously persisted
transaction state — it restarts at 1 rather than continuing from (or
resetting below) the stored value. -/
theorem c6_amended_counter_per_invocation :
    ∀ (responses : Nat → Option Nat) (tx tx' : Callback.CbTx),
      (Callback.sendCallback responses true tx).writes =
        List.range' 1 (Callback.sendCallback responses true tx).writes.length ∧
      (Callback.sendCallback responses true tx).writes =
        (Callback.sendCallback responses true tx').writes ∧
      0 ∉ (Callback.sendCallback responses true tx).writes := by
  intro responses tx tx'
  refine ⟨Callback.sendAux_writes_range responses 3 0 tx,
          Callback.sendAux_writes_indep responses true 3 0 tx tx', ?_⟩
  intro h0
  simp only [Callback.sendCallback] at h0
  rw [Callback.sendAux_writes_range responses 3 0 tx, List.mem_range'_1] at h0
  omega

/-! ## C9 — terminal delay clamping -/

/-- C9 counterexample: with `processingDelay = 3000` and
`callbackDelay = 1000` the delay computed as
`callbackDelay − processingDelay` is −2000 (it does go negative), and the
effective timer delay is 1 ms, not the claimed clamp to zero. -/
theorem c9_counterexample_no_zero_clamp :
    Lifecycle.terminalDelayExpr ⟨3000, 1000⟩ = -2000 ∧
    Lifecycle.terminalDelayUsed ⟨3000, 1000⟩ = 1 ∧
    Lifecycle.terminalDelayUsed ⟨3000, 1000⟩ ≠ 0 := by
  decide

/-- C9 amended: the code passes the raw difference to `setTimeout`; Node's
timer semantics clamp any delay below 1 ms to 1 ms, so the effective
terminal delay is always at least 1 ms (never negative), and whenever
`callbackDelay ≤ processingDelay` it is exactly 1 ms — the terminal
transition fires effectively immediately after the PROCESSING one. -/
theorem c9_amended_terminal_delay_clamped_to_1ms :
    ∀ env : Lifecycle.PaymentEnvConfig,
      1 ≤ Lifecycle.terminalDelayUsed env ∧
      (env.callbackDelay ≤ env.processingDelay →
        Lifecycle.terminalDelayUsed env = 1 ∧
        Lifecycle.terminalFireTime env = Lifecycle.processingFireTime env + 1) := by
  intro env
  constructor
  · rw [Lifecycle.terminalDelayUsed, Lifecycle.nodeTimeout]
    split
    · exact Nat.le_refl 1
    · rename_i h
      omega
  · intro h
    have hlt : Lifecycle.terminalDelayExpr env < 1 := by
      rw [Lifecycle.terminalDelayExpr]; omega
    constructor
    · simp [Lifecycle.terminalDelayUsed, Lifecycle.nodeTimeout, hlt]
    · simp [Lifecycle.terminalFireTime, Lifecycle.terminalDelayUsed,
        Lifecycle.nodeTimeout, hlt]

theorem c9_amended_terminal_delay_clamped_to_1ms_witness :
    1 ≤ Lifecycle.terminalDelayUsed ⟨3000, 1000⟩ ∧
    Lifecycle.terminalDelayUsed ⟨3000, 1000⟩ = 1 ∧
    Lifecycle.terminalFireTime ⟨3000, 1000⟩ = Lifecycle.processingFireTime ⟨3000, 1000⟩ + 1 :=
  ⟨(c9_amended_terminal_delay_clamped_to_1ms ⟨3000, 1000⟩).1,
   (c9_amended_terminal_delay_clamped_to_1ms ⟨3000, 1000⟩).2 (by decide)⟩

/-! ## C1 / C8 — lifecycle scheduling and configuration reads -/

namespace Scenario

theorem getOutcome_congr (c1 c2 : ScenarioConfig)
    (h1 : c1.rules = c2.rules) (h2 : c1.defaultOutcome = c2.defaultOutcome)
    (rnd : Bool) (amount network token : String) :
    getOutcomeForTransaction c1 rnd amount network token =
      getOutcomeForTransaction c2 rnd amount network token := by
  simp only [getOutcomeForTransaction, h1, h2]

end Scenario

/-- C1 counterexample: with env delays (processing 1000 ms, callback
3000 ms), a rule configuration that carries the `.99 → FAIL` rule until
t = 2000 and is empty afterwards, and amount `"99.99"`: the terminal
status written at t = 3000 is `"2"` (FAIL — decided at the PROCESSING
transition, t = 1000), while the Outcome Engine consulted at the terminal
moment would give `"1"` (SUCCESS). A rule change made after the
PROCESSING transition but before the terminal transition does NOT
determine the outcome. -/
theorem c1_counterexample_decision_not_at_terminal :
    Lifecycle.statusAt ⟨1000, 3000⟩
        (fun t => if t < 2000 then ⟨.SUCCESS, 3000, 1000, [⟨.amount_ends_with, ".99", .FAIL⟩]⟩
                  else ⟨.SUCCESS, 3000, 1000, []⟩)
        true "99.99" "Alipay" "tok" 3000 = "2" ∧
    Scenario.getOutcomeForTransaction
        ((fun t => if t < 2000 then ⟨.SUCCESS, 3000, 1000, [⟨.amount_ends_with, ".99", .FAIL⟩]⟩
                   else ⟨.SUCCESS, 3000, 1000, []⟩) (Lifecycle.terminalFireTime ⟨1000, 3000⟩))
        true "99.99" "Alipay" "tok" = "1" ∧
    ("2" : String) ≠ "1" := by
  refine ⟨by decide, by decide, by decide⟩

/-- C1 amended: after `processingDelay` the status is PROCESSING, but the
outcome decision is made at that same moment (the decision time equals the
PROCESSING fire time); the terminal transition at `callbackDelay` merely
writes the pre-decided value, so only the configuration current at the
PROCESSING transition matters, and configuration changes between the
PROCESSING and terminal transitions have no effect. -/
theorem c1_amended_outcome_decided_at_processing :
    ∀ (env : Lifecycle.PaymentEnvConfig)
      (scenarioAt scenarioAt' : Nat → Scenario.ScenarioConfig)
      (rnd : Bool) (amount network token : String) (t : Nat),
      (t < Lifecycle.processingFireTime env →
        Lifecycle.statusAt env scenarioAt rnd amount network token t = "0") ∧
      (Lifecycle.processingFireTime env ≤ t → t < Lifecycle.terminalFireTime env →
        Lifecycle.statusAt env scenarioAt rnd amount network token t = "4") ∧
      (Lifecycle.terminalFireTime env ≤ t →
        Lifecycle.statusAt env scenarioAt rnd amount network token t =
          Scenario.getOutcomeForTransaction (scenarioAt (Lifecycle.decisionTime env))
            rnd amount network token) ∧
      (scenarioAt (Lifecycle.decisionTime env) = scenarioAt' (Lifecycle.decisionTime env) →
        Lifecycle.statusAt env scenarioAt rnd amount network token t =
          Lifecycle.statusAt env scenarioAt' rnd amount network token t) ∧
      Lifecycle.decisionTime env = Lifecycle.processingFireTime env := by
  intro env scenarioAt scenarioAt' rnd amount network token t
  have hpt : Lifecycle.processingFireTime env ≤ Lifecycle.terminalFireTime env :=
    Nat.le_add_right _ _
  refine ⟨?_, ?_, ?_, ?_, rfl⟩
  · intro h
    simp [Lifecycle.statusAt, h]
  · intro h1 h2
    simp only [Lifecycle.statusAt]
    rw [if_neg (by omega), if_pos h2]
  · intro h
    simp only [Lifecycle.statusAt]
    rw [if_neg (by omega), if_neg (by omega)]
    rfl
  · intro h
    simp only [Lifecycle.statusAt, Lifecycle.finalStatus, h]

theorem c1_amended_outcome_decided_at_processing_witness :
    Lifecycle.statusAt ⟨1000, 3000⟩
        (fun t => if t < 2000 then ⟨.SUCCESS, 3000, 1000, [⟨.amount_ends_with, ".99", .FAIL⟩]⟩
                  else ⟨.SUCCESS, 3000, 1000, []⟩)
        true "99.99" "Alipay" "tok" 500 = "0" ∧
    Lifecycle.statusAt ⟨1000, 3000⟩
        (fun t => if t < 2000 then ⟨.SUCCESS, 3000, 1000, [⟨.amount_ends_with, ".99", .FAIL⟩]⟩
                  else ⟨.SUCCESS, 3000, 1000, []⟩)
        true "99.99" "Alipay" "tok" 1500 = "4" ∧
    Lifecycle.statusAt ⟨1000, 3000⟩
        (fun t => if t < 2000 then ⟨.SUCCESS, 3000, 1000, [⟨.amount_ends_with, ".99", .FAIL⟩]⟩
                  else ⟨.SUCCESS, 3000, 1000, []⟩)
        true "99.99" "Alipay" "tok" 3000 =
      Scenario.getOutcomeForTransaction
        ⟨.SUCCESS, 3000, 1000, [⟨.amount_ends_with, ".99", .FAIL⟩]⟩
        true "99.99" "Alipay" "tok" ∧
    Lifecycle.statusAt ⟨1000, 3000⟩
        (fun t => if t < 2000 then ⟨.SUCCESS, 3000, 1000, [⟨.amount_ends_with, ".99", .FAIL⟩]⟩
                  else ⟨.SUCCESS, 3000, 1000, []⟩)
        true "99.99" "Alipay" "tok" 3000 =
      Lifecycle.statusAt ⟨1000, 3000⟩
        (fun _ => ⟨.SUCCESS, 3000, 1000, [⟨.amount_ends_with, ".99", .FAIL⟩]⟩)
        true "99.99" "Alipay" "tok" 3000 :=
  ⟨(c1_amended_outcome_decided_at_processing ⟨1000, 3000⟩
      (fun t => if t < 2000 then ⟨.SUCCESS, 3000, 1000, [⟨.amount_ends_with, ".99", .FAIL⟩]⟩
                else ⟨.SUCCESS, 3000, 1000, []⟩)
      (fun _ => ⟨.SUCCESS, 3000, 1000, []⟩) true "99.99" "Alipay" "tok" 500).1
      (by decide),
   (c1_amended_outcome_decided_at_processing ⟨1000, 3000⟩
      (fun t => if t < 2000 then ⟨.SUCCESS, 3000, 1000, [⟨.amount_ends_with, ".99", .FAIL⟩]⟩
                else ⟨.SUCCESS, 3000, 1000, []⟩)
      (fun _ => ⟨.SUCCESS, 3000, 1000, []⟩) true "99.99" "Alipay" "tok" 1500).2.1
      (by decide) (by decide),
   (c1_amended_outcome_decided_at_processing ⟨1000, 3000⟩
      (fun t => if t < 2000 then ⟨.SUCCESS, 3000, 1000, [⟨.amount_ends_with, ".99", .FAIL⟩]⟩
                else ⟨.SUCCESS, 3000, 1000, []⟩)
      (fun _ => ⟨.SUCCESS, 3000, 1000, []⟩) true "99.99" "Alipay" "tok" 3000).2.2.1
      (by decide),
   (c1_amended_outcome_decided_at_processing ⟨1000, 3000⟩
      (fun t => if t < 2000 then ⟨.SUCCESS, 3000, 1000, [⟨.amount_ends_with, ".99", .FAIL⟩]⟩
                else ⟨.SUCCESS, 3000, 1000, []⟩)
      (fun _ => ⟨.SUCCESS, 3000, 1000, [⟨.amount_ends_with, ".99", .FAIL⟩]⟩)
      true "99.99" "Alipay" "tok" 3000).2.2.2.1 (by decide)⟩

/-- C8 counterexample: with static env delays (1000 ms, 3000 ms) and the
mutable scenario configuration set to tiny delays (processing 50 ms,
callback 60 ms), the observed status at t = 2000 is still `"4"`
(PROCESSING): the scheduled transitions use the env-derived
`config.payment` delays, not the mutable OutcomeConfiguration, which under
the claimed behaviour would already have produced the terminal value
`"1"`. -/
theorem c8_counterexample_delays_not_from_mutable_config :
    Lifecycle.statusAt ⟨1000, 3000⟩ (fun _ => ⟨.SUCCESS, 60, 50, []⟩)
        true "1.00" "Alipay" "tok" 2000 = "4" ∧
    Lifecycle.claimedStatusAt (fun _ => ⟨.SUCCESS, 60, 50, []⟩)
        true "1.00" "Alipay" "tok" 2000 = "1" ∧
    ("4" : String) ≠ "1" := by
  refine ⟨by decide, by decide, by decide⟩

/-- C8 amended: the rules and default outcome ARE read from the
process-wide mutable configuration at decision time (so reconfiguring them
affects transactions whose outcome is not yet decided), but the
`processingDelay` and `callbackDelay` used for scheduling come only from
the env-derived static `config.payment`: two scenario timelines that agree
on rules and default outcome at decision time produce identical status
timelines even if their delay fields differ arbitrarily. -/
theorem c8_amended_rules_live_delays_static :
    ∀ (env : Lifecycle.PaymentEnvConfig)
      (scenarioAt scenarioAt' : Nat → Scenario.ScenarioConfig)
      (rnd : Bool) (amount network token : String) (t : Nat),
      ((scenarioAt (Lifecycle.decisionTime env)).rules =
          (scenarioAt' (Lifecycle.decisionTime env)).rules →
       (scenarioAt (Lifecycle.decisionTime env)).defaultOutcome =
          (scenarioAt' (Lifecycle.decisionTime env)).defaultOutcome →
       Lifecycle.statusAt env scenarioAt rnd amount network token t =
         Lifecycle.statusAt env scenarioAt' rnd amount network token t) ∧
      (Lifecycle.terminalFireTime env ≤ t →
        Lifecycle.statusAt env scenarioAt rnd amount network token t =
          Scenario.getOutcomeForTransaction (scenarioAt (Lifecycle.decisionTime env))
            rnd amount network token) := by
  intro env scenarioAt scenarioAt' rnd amount network token t
  constructor
  · intro h1 h2
    simp only [Lifecycle.statusAt, Lifecycle.finalStatus]
    rw [Scenario.getOutcome_congr (scenarioAt (Lifecycle.decisionTime env))
      (scenarioAt' (Lifecycle.decisionTime env)) h1 h2]
  · exact (c1_amended_outcome_decided_at_processing env scenarioAt scenarioAt'
      rnd amount network token t).2.2.1

theorem c8_amended_rules_live_delays_static_witness :
    Lifecycle.statusAt ⟨1000, 3000⟩ (fun _ => ⟨.SUCCESS, 60, 50, []⟩)
        true "1.00" "Alipay" "tok" 2000 =
      Lifecycle.statusAt ⟨1000, 3000⟩ (fun _ => ⟨.SUCCESS, 999999, 888888, []⟩)
        true "1.00" "Alipay" "tok" 2000 ∧
    Lifecycle.statusAt ⟨1000, 3000⟩ (fun _ => ⟨.SUCCESS, 60, 50, []⟩)
        true "1.00" "Alipay" "tok" 3000 =
      Scenario.getOutcomeForTransaction ⟨.SUCCESS, 60, 50, []⟩
        true "1.00" "Alipay" "tok" :=
  ⟨(c8_amended_rules_live_delays_static ⟨1000, 3000⟩ (fun _ => ⟨.SUCCESS, 60, 50, []⟩)
      (fun _ => ⟨.SUCCESS, 999999, 888888, []⟩) true "1.00" "Alipay" "tok" 2000).1
      rfl rfl,
   (c8_amended_rules_live_delays_static ⟨1000, 3000⟩ (fun _ => ⟨.SUCCESS, 60, 50, []⟩)
      (fun _ => ⟨.SUCCESS, 60, 50, []⟩) true "1.00" "Alipay" "tok" 3000).2
      (by decide)⟩

/-! ## C7 — merchant-reference query -/

/-- C7 counterexample: the route renders `created_time` (and
`completed_time`) as decimal strings — `Math.floor(ms/1000).toString()` —
while the claim says Unix-epoch-second integers; on a concrete stored
transaction the code's JSON output differs from the spec-shaped output
(`"1700000000"` as a JSON string versus the JSON number `1700000000`). -/
theorem c7_counterexample_epoch_times_are_strings :
    Query.paymentQuery
        [Query.createTransaction "MREF" "HKD" "100.00" "RR1" 1700000000123] "MREF" ≠
      Query.specPaymentQuery
        [Query.createTransaction "MREF" "HKD" "100.00" "RR1" 1700000000123] "MREF" := by
  decide

/-- C7 amended: the query returns all transactions with the given
merchant reference, ordered by creation time ascending, each mapped to
`{type: "Sale" (as stored), merchant_reference, request_reference, status,
currency, amount to six fractional digits, created_time/completed_time as
decimal strings of Unix-epoch seconds, completed_time null when unset}`;
`createTransaction` stores the amount string verbatim with type "Sale";
and `"100.00"` is reported as `"100.000000"`. -/
theorem c7_amended_query_shape_and_order :
    (∀ (db : List Query.Tx) (ref : String),
        Query.paymentQuery db ref = Query.specPaymentQueryStr db ref) ∧
    (∀ (db : List Query.Tx) (ref : String),
        (Query.findManyByRef db ref).Perm
          (db.filter (fun t => t.merchantReference == ref))) ∧
    (∀ (db : List Query.Tx) (ref : String),
        List.Chain' (fun a b => a.createdTimeMs ≤ b.createdTimeMs)
          (Query.findManyByRef db ref)) ∧
    (∀ mref cur amt rr now,
        (Query.createTransaction mref cur amt rr now).amount = amt ∧
        (Query.createTransaction mref cur amt rr now).type = "Sale" ∧
        (Query.createTransaction mref cur amt rr now).status = "0" ∧
        (Query.createTransaction mref cur amt rr now).completedTimeMs = none) ∧
    Query.amountToFixed "100.00" 6 = "100.000000" := by
  refine ⟨?_, ?_, ?_, ?_, by decide⟩
  · intro db ref
    rfl
  · intro db ref
    exact Sig.sortBy_perm _ _
  · intro db ref
    have total : ∀ a b : Query.Tx,
        (a.createdTimeMs.ble b.createdTimeMs) = true ∨
        (b.createdTimeMs.ble a.createdTimeMs) = true := by
      intro a b
      rcases Nat.le_total a.createdTimeMs b.createdTimeMs with h | h
      · exact Or.inl (by simpa [Nat.ble_eq] using h)
      · exact Or.inr (by simpa [Nat.ble_eq] using h)
    exact (Sig.chain'_sortBy total _).imp fun a b h => Nat.le_of_ble_eq_true h
  · intro mref cur amt rr now
    exact ⟨rfl, rfl, rfl, rfl⟩

/-! ## C2 — signature canonicalization -/

namespace Sig

theorem utf16Char_ascii (c : Char) (hc : c.toNat < 128) : utf16Char c = [c.toNat] := by
  simp only [utf16Char]
  rw [if_pos (by omega)]

theorem utf8Char_ascii (c : Char) (hc : c.toNat < 128) :
    Sha512.utf8Char c = [c.toNat] := by
  simp only [Sha512.utf8Char]
  rw [if_pos (by omega)]

theorem utf16_eq_utf8_of_ascii (s : String) (h : isAscii s = true) :
    utf16 s = Sha512.utf8 s := by
  rw [isAscii, List.all_eq_true] at h
  rw [utf16, Sha512.utf8]
  have aux : ∀ cs : List Char, (∀ c ∈ cs, c.toNat < 128) →
      cs.foldr (fun c acc => utf16Char c ++ acc) [] =
        cs.foldr (fun c acc => Sha512.utf8Char c ++ acc) [] := by
    intro cs hcs
    induction cs with
    | nil => rfl
    | cons c cs2 ih =>
      simp only [List.foldr_cons,
        utf16Char_ascii c (hcs c (List.mem_cons_self c cs2)),
        utf8Char_ascii c (hcs c (List.mem_cons_self c cs2)),
        ih fun a ha => hcs a (List.mem_cons_of_mem c ha)]
  exact aux s.data fun c hc => by simpa using h c hc

theorem jsLt_eq_byteLt_of_ascii (a b : String)
    (ha : isAscii a = true) (hb : isAscii b = true) : jsLt a b = byteLt a b := by
  rw [jsLt, byteLt, utf16_eq_utf8_of_ascii a ha, utf16_eq_utf8_of_ascii b hb]

theorem objectKeys_id (ks : List String)
    (h : ∀ k ∈ ks, isArrayIndex k = false) : objectKeys ks = ks := by
  have h1 : ks.filter isArrayIndex = [] := by
    rw [List.filter_eq_nil_iff]
    intro a ha
    simp [h a ha]
  have h2 : ks.filter (fun k => !isArrayIndex k) = ks := by
    rw [List.filter_eq_self]
    intro a ha
    simp [h a ha]
  rw [objectKeys, h1, h2]
  rfl

end Sig

/-- C2 counterexample: for the field map with keys `"10"` and `"2"`
(canonical array-index strings) and secret `"s"`, the code serializes in
JavaScript object enumeration order (`2=b&10=a`, numeric ascending) while
the claim's byte-wise ascending sort gives `10=a&2=b`; the two SHA-512
digests differ. -/
theorem c2_counterexample_array_index_keys :
    Sig.generateSignature [("10", "a"), ("2", "b")] "s" ≠
      Sha512.sha512hex (Sig.specSignatureBase [("10", "a"), ("2", "b")] "s") := by
  decide

/-- C2 amended: for every field map whose keys are ASCII strings, none of
which is a canonical array-index string (value below 2^32 − 1), the
signature equals the SHA-512 digest — 128 lowercase hex characters — of
the byte-wise key-sorted `key=value&…` serialization (querystring
percent-encoding, space as `%20`) with the raw secret appended. (For
array-index keys, JavaScript object semantics enumerate them first in
numeric order; JavaScript's sort compares UTF-16 code units, which agrees
with byte-wise order on ASCII keys.) -/
theorem c2_amended_signature_of_bytewise_sorted_serialization :
    ∀ (fields : Sig.Fields) (secret : String),
      (∀ k ∈ fields.map Prod.fst, Sig.isArrayIndex k = false) →
      (∀ k ∈ fields.map Prod.fst, Sig.isAscii k = true) →
      Sig.generateSignature fields secret =
        Sha512.sha512hex (Sig.specSignatureBase fields secret) := by
  intro fields secret hidx hascii
  have hkeys : Sig.objectKeys (Sig.sortBy Sig.jsLt (fields.map Prod.fst)) =
      Sig.sortBy Sig.byteLt (fields.map Prod.fst) := by
    have h1 : Sig.objectKeys (Sig.sortBy Sig.jsLt (fields.map Prod.fst)) =
        Sig.sortBy Sig.jsLt (fields.map Prod.fst) :=
      Sig.objectKeys_id _ fun k hk => hidx k (Sig.mem_sortBy.1 hk)
    have h2 : Sig.sortBy Sig.jsLt (fields.map Prod.fst) =
        Sig.sortBy Sig.byteLt (fields.map Prod.fst) :=
      Sig.sortBy_congr fun a ha b _hb =>
        Sig.jsLt_eq_byteLt_of_ascii a b (hascii a ha) (hascii b _hb)
    rw [h1, h2]
  rw [Sig.generateSignature, Sig.signatureBase, Sig.specSignatureBase,
    Sig.queryString, Sig.specQueryString, hkeys]

theorem c2_amended_signature_of_bytewise_sorted_serialization_witness :
    Sig.generateSignature [("amount", "100.00"), ("currency", "HKD")] "sec" =
      Sha512.sha512hex
        (Sig.specSignatureBase [("amount", "100.00"), ("currency", "HKD")] "sec") :=
  c2_amended_signature_of_bytewise_sorted_serialization
    [("amount", "100.00"), ("currency", "HKD")] "sec" (by decide) (by decide)

/-! ## C3 — verification round-trip and tamper detection -/

namespace Sha512

theorem bounded_H0 : Bounded H0 := by
  refine ⟨?_, ?_, ?_, ?_, ?_, ?_, ?_, ?_⟩ <;> decide

theorem compress_bounded (st : Hash) (b : List Nat) : Bounded (compress st b) := by
  refine ⟨?_, ?_, ?_, ?_, ?_, ?_, ?_, ?_⟩ <;>
    exact Nat.mod_lt _ (by decide)

theorem foldl_compress_bounded (blocks : List (List Nat)) :
    ∀ st : Hash, Bounded st → Bounded (blocks.foldl compress st) := by
  induction blocks with
  | nil => intro st h; exact h
  | cons b bs ih =>
    intro st _h
    rw [List.foldl_cons]
    exact ih (compress st b) (compress_bounded st b)

theorem foldl_word_bound :
    ∀ (ws : List Nat) (acc B : Nat), acc < B → (∀ w ∈ ws, w < M64) →
      ws.foldl (fun a w => a * M64 + w) acc < B * M64 ^ ws.length := by
  intro ws
  induction ws with
  | nil => intro acc B h _; simpa using h
  | cons w ws2 ih =>
    intro acc B h hw
    have hwlt : w < M64 := hw w (List.mem_cons_self w ws2)
    have h1 : acc * M64 + w < B * M64 := by
      have h2 : acc * M64 + w < (acc + 1) * M64 := by
        rw [Nat.succ_mul]
        omega
      have h3 : (acc + 1) * M64 ≤ B * M64 := Nat.mul_le_mul_right _ h
      omega
    have := ih (acc * M64 + w) (B * M64) h1 fun x hx => hw x (List.mem_cons_of_mem w hx)
    simp only [List.foldl_cons, List.length_cons]
    rw [show B * M64 ^ (ws2.length + 1) = B * M64 * M64 ^ ws2.length by ring]
    exact this

theorem digestNat_lt (msg : List Nat) : digestNat msg < 2 ^ 512 := by
  have hb := foldl_compress_bounded (chunks (pad msg)) H0 bounded_H0
  obtain ⟨h1, h2, h3, h4, h5, h6, h7, h8⟩ := hb
  have hmem : ∀ w ∈ [((chunks (pad msg)).foldl compress H0).a,
      ((chunks (pad msg)).foldl compress H0).b,
      ((chunks (pad msg)).foldl compress H0).c,
      ((chunks (pad msg)).foldl compress H0).d,
      ((chunks (pad msg)).foldl compress H0).e,
      ((chunks (pad msg)).foldl compress H0).f,
      ((chunks (pad msg)).foldl compress H0).g,
      ((chunks (pad msg)).foldl compress H0).h], w < M64 := by
    intro w hw
    simp only [List.mem_cons, List.not_mem_nil, or_false] at hw
    rcases hw with rfl | rfl | rfl | rfl | rfl | rfl | rfl | rfl <;> assumption
  have hfold := foldl_word_bound _ 0 1 Nat.one_pos hmem
  have hpow : 1 * M64 ^ (8 : Nat) = 2 ^ 512 := by decide
  simp only [digestNat]
  calc _ < 1 * M64 ^ (8 : Nat) := hfold
    _ = 2 ^ 512 := hpow

end Sha512

/-- C3 counterexample: the claim as stated is false — by pigeonhole,
among 2^512 + 1 distinct secrets two must give the same SHA-512 digest of
the (empty-field-map) signature base, so for some pair of DIFFERENT
secrets verification still returns true; "a different secret makes
verification false" cannot hold for every secret pair. -/
theorem c3_counterexample_distinct_secrets_can_verify : ¬ Sig.claimC3 := by
  intro hcl
  have finj : ∀ m n : Nat,
      String.mk (List.replicate m 'a') = String.mk (List.replicate n 'a') → m = n := by
    intro m n h
    have h2 := congrArg (fun s : String => s.data.length) h
    simpa using h2
  have hcard : Fintype.card (Fin (2 ^ 512)) < Fintype.card (Fin (2 ^ 512 + 1)) := by
    simp only [Fintype.card_fin]
    exact Nat.lt_succ_self _
  obtain ⟨i, j, hne, heq⟩ :=
    Fintype.exists_ne_map_eq_of_card_lt
      (fun i : Fin (2 ^ 512 + 1) =>
        (⟨Sha512.digestNat (Sha512.utf8 (String.mk (List.replicate i.val 'a'))),
          Sha512.digestNat_lt _⟩ : Fin (2 ^ 512)))
      hcard
  have hdig : Sha512.digestNat (Sha512.utf8 (String.mk (List.replicate i.val 'a'))) =
      Sha512.digestNat (Sha512.utf8 (String.mk (List.replicate j.val 'a'))) :=
    congrArg Fin.val heq
  have hhex : Sha512.sha512hex (String.mk (List.replicate i.val 'a')) =
      Sha512.sha512hex (String.mk (List.replicate j.val 'a')) := by
    rw [Sha512.sha512hex, Sha512.sha512hex, hdig]
  have hbase : ∀ s : String, Sig.signatureBase [] s = s := by
    intro s
    apply String.ext
    simp [Sig.signatureBase, Sig.queryString, Sig.objectKeys, Sig.sortBy, Sig.joinAmp]
  have hgen : Sig.generateSignature [] (String.mk (List.replicate i.val 'a')) =
      Sig.generateSignature [] (String.mk (List.replicate j.val 'a')) := by
    rw [Sig.generateSignature, Sig.generateSignature, hbase, hbase]
    exact hhex
  obtain ⟨_rt, _mut, hsec⟩ := hcl [] (String.mk (List.replicate i.val 'a'))
  have hne' : String.mk (List.replicate j.val 'a') ≠ String.mk (List.replicate i.val 'a') := by
    intro h
    exact hne (Fin.ext ((finj i.val j.val h.symm)))
  have hfalse := hsec (String.mk (List.replicate j.val 'a')) hne'
  have htrue : Sig.verifySignature [] 
      (Sig.generateSignature [] (String.mk (List.replicate i.val 'a')))
      (String.mk (List.replicate j.val 'a')) = true := by
    rw [Sig.verifySignature, hgen]
    exact beq_self_eq_true _
  rw [hfalse] at htrue
  exact Bool.false_ne_true htrue

namespace Sig

theorem char_toNat_lt (c : Char) : c.toNat < 1114112 := by
  rcases c.valid with h | ⟨_h1, h2⟩
  · exact Nat.lt_trans h (by norm_num)
  · exact h2

theorem utf8Char_lt_256 (c : Char) : ∀ b ∈ Sha512.utf8Char c, b < 256 := by
  have hc := char_toNat_lt c
  intro b hb
  simp only [Sha512.utf8Char] at hb
  by_cases h1 : c.toNat < 128
  · rw [if_pos h1] at hb
    simp at hb
    omega
  · rw [if_neg h1] at hb
    by_cases h2 : c.toNat < 2048
    · rw [if_pos h2] at hb
      simp at hb
      rcases hb with rfl | rfl <;> omega
    · rw [if_neg h2] at hb
      by_cases h3 : c.toNat < 65536
      · rw [if_pos h3] at hb
        simp at hb
        rcases hb with rfl | rfl | rfl <;> omega
      · rw [if_neg h3] at hb
        simp at hb
        rcases hb with rfl | rfl | rfl | rfl <;> omega

theorem utf8_lt_256 (s : String) : ∀ b ∈ Sha512.utf8 s, b < 256 := by
  rw [Sha512.utf8]
  induction s.data with
  | nil => intro b hb; simp at hb
  | cons c cs ih =>
    intro b hb
    simp only [List.foldr_cons] at hb
    rcases List.mem_append.1 hb with h | h
    · exact utf8Char_lt_256 c b h
    · exact ih b h

theorem utf8Char_length_pos (c : Char) : 1 ≤ (Sha512.utf8Char c).length := by
  simp only [Sha512.utf8Char]
  split
  · simp
  · split
    · simp
    · split <;> simp

theorem utf8DecodeAux_encode (cs : List Char) : ∀ fuel : Nat,
    (cs.foldr (fun c acc => Sha512.utf8Char c ++ acc) []).length ≤ fuel →
    utf8DecodeAux fuel (cs.foldr (fun c acc => Sha512.utf8Char c ++ acc) []) = cs := by
  induction cs with
  | nil =>
    intro fuel _h
    cases fuel <;> rfl
  | cons c cs2 ih =>
    intro fuel hlen
    simp only [List.foldr_cons] at hlen ⊢
    have hc := char_toNat_lt c
    have hofnat := Char.ofNat_toNat c
    obtain ⟨f, rfl⟩ : ∃ f, fuel = f + 1 := by
      cases fuel with
      | zero =>
        exfalso
        have h1 := utf8Char_length_pos c
        rw [List.length_append] at hlen
        omega
      | succ f => exact ⟨f, rfl⟩
    by_cases h1 : c.toNat < 0x80
    · have hchar : Sha512.utf8Char c = [c.toNat] := by
        simp only [Sha512.utf8Char]
        rw [if_pos h1]
      rw [hchar] at hlen ⊢
      rw [List.singleton_append]
      simp only [utf8DecodeAux]
      rw [if_pos h1, hofnat]
      rw [ih f (by simp at hlen; omega)]
    · by_cases h2 : c.toNat < 0x800
      · have hchar : Sha512.utf8Char c = [0xC0 + c.toNat / 64, 0x80 + c.toNat % 64] := by
          simp only [Sha512.utf8Char]
          rw [if_neg h1, if_pos h2]
        rw [hchar] at hlen ⊢
        simp only [List.cons_append, List.nil_append]
        simp only [utf8DecodeAux]
        rw [if_neg (by omega), if_pos (by omega)]
        simp only [List.headD_cons, List.drop_succ_cons, List.drop_zero]
        rw [show (0xC0 + c.toNat / 64 - 0xC0) * 64 +
          (0x80 + c.toNat % 64 - 0x80) = c.toNat from by omega, hofnat]
        rw [ih f (by simp at hlen; omega)]
      · by_cases h3 : c.toNat < 0x10000
        · have hchar : Sha512.utf8Char c =
              [0xE0 + c.toNat / 4096, 0x80 + c.toNat / 64 % 64, 0x80 + c.toNat % 64] := by
            simp only [Sha512.utf8Char]
            rw [if_neg h1, if_neg h2, if_pos h3]
          rw [hchar] at hlen ⊢
          simp only [List.cons_append, List.nil_append]
          simp only [utf8DecodeAux]
          rw [if_neg (by omega), if_neg (by omega), if_pos (by omega)]
          simp only [List.headD_cons, List.drop_succ_cons, List.drop_zero]
          rw [show (0xE0 + c.toNat / 4096 - 0xE0) * 4096 +
            (0x80 + c.toNat / 64 % 64 - 0x80) * 64 +
            (0x80 + c.toNat % 64 - 0x80) = c.toNat from by omega, hofnat]
          rw [ih f (by simp at hlen; omega)]
        · have hchar : Sha512.utf8Char c =
              [0xF0 + c.toNat / 262144, 0x80 + c.toNat / 4096 % 64,
               0x80 + c.toNat / 64 % 64, 0x80 + c.toNat % 64] := by
            simp only [Sha512.utf8Char]
            rw [if_neg h1, if_neg h2, if_neg h3]
          rw [hchar] at hlen ⊢
          simp only [List.cons_append, List.nil_append]
          simp only [utf8DecodeAux]
          rw [if_neg (by omega), if_neg (by omega), if_neg (by omega)]
          simp only [List.headD_cons, List.drop_succ_cons, List.drop_zero]
          rw [show (0xF0 + c.toNat / 262144 - 0xF0) * 262144 +
            (0x80 + c.toNat / 4096 % 64 - 0x80) * 4096 +
            (0x80 + c.toNat / 64 % 64 - 0x80) * 64 +
            (0x80 + c.toNat % 64 - 0x80) = c.toNat from by omega, hofnat]
          rw [ih f (by simp at hlen; omega)]

theorem utf8Decode_utf8 (s : String) : utf8Decode (Sha512.utf8 s) = s.data := by
  rw [utf8Decode, Sha512.utf8]
  exact utf8DecodeAux_encode s.data _ (Nat.le_refl _)

theorem utf8_inj (s t : String) (h : Sha512.utf8 s = Sha512.utf8 t) : s = t := by
  apply String.ext
  rw [← utf8Decode_utf8 s, ← utf8Decode_utf8 t, h]


end Sig

namespace Sig

theorem escape_data (s : String) :
    (escape s).data = (Sha512.utf8 s).foldr (fun b acc => escapeByte b ++ acc) [] := rfl

theorem escapeByte_length_pos (b : Nat) : 1 ≤ (escapeByte b).length := by
  simp only [escapeByte]
  split <;> simp

theorem unescapeAux_escape (bs : List Nat) : ∀ fuel : Nat, (∀ b ∈ bs, b < 256) →
    (bs.foldr (fun b acc => escapeByte b ++ acc) []).length ≤ fuel →
    unescapeAux fuel (bs.foldr (fun b acc => escapeByte b ++ acc) []) = bs := by
  have hA : ∀ b, b < 256 → unreservedByte b = true →
      ((Char.ofNat b == '%') = false ∧ (Char.ofNat b).toNat = b) := by decide
  have hB : ∀ x, x < 16 → hexVal (hexUpperChar x) = x := by decide
  induction bs with
  | nil =>
    intro fuel _h _hl
    cases fuel <;> rfl
  | cons b bs2 ih =>
    intro fuel hb hlen
    have hblt : b < 256 := hb b (List.mem_cons_self b bs2)
    simp only [List.foldr_cons] at hlen ⊢
    obtain ⟨f, rfl⟩ : ∃ f, fuel = f + 1 := by
      cases fuel with
      | zero =>
        exfalso
        have h1 := escapeByte_length_pos b
        rw [List.length_append] at hlen
        omega
      | succ f => exact ⟨f, rfl⟩
    by_cases hu : unreservedByte b = true
    · have hblock : escapeByte b = [Char.ofNat b] := by
        simp only [escapeByte]
        rw [if_pos hu]
      rw [hblock] at hlen ⊢
      rw [List.singleton_append]
      simp only [unescapeAux]
      rw [if_neg (by simp [(hA b hblt hu).1]), (hA b hblt hu).2]
      rw [ih f (fun x hx => hb x (List.mem_cons_of_mem b hx)) (by simp at hlen; omega)]
    · have hblock : escapeByte b = ['%', hexUpperChar (b / 16), hexUpperChar (b % 16)] := by
        simp only [escapeByte]
        rw [if_neg hu]
      rw [hblock] at hlen ⊢
      simp only [List.cons_append, List.nil_append]
      simp only [unescapeAux]
      rw [if_pos (by decide)]
      simp only [List.headD_cons, List.drop_succ_cons, List.drop_zero]
      rw [hB (b / 16) (by omega), hB (b % 16) (by omega),
        show b / 16 * 16 + b % 16 = b from by omega]
      rw [ih f (fun x hx => hb x (List.mem_cons_of_mem b hx)) (by simp at hlen; omega)]

theorem unescape_escape (s : String) :
    unescapeChars (escape s).data = Sha512.utf8 s := by
  rw [escape_data, unescapeChars]
  exact unescapeAux_escape (Sha512.utf8 s) _ (utf8_lt_256 s) (Nat.le_refl _)

theorem escape_inj (s t : String) (h : escape s = escape t) : s = t := by
  apply utf8_inj
  rw [← unescape_escape s, ← unescape_escape t, h]

theorem amp_not_mem_escapeByte : ∀ b, b < 256 → '&' ∉ escapeByte b := by decide

theorem amp_not_mem_escape (s : String) : '&' ∉ (escape s).data := by
  rw [escape_data]
  have aux : ∀ bs : List Nat, (∀ b ∈ bs, b < 256) →
      '&' ∉ bs.foldr (fun b acc => escapeByte b ++ acc) [] := by
    intro bs
    induction bs with
    | nil => intro _ hmem; simp at hmem
    | cons b bs2 ih =>
      intro hbs hmem
      simp only [List.foldr_cons] at hmem
      rcases List.mem_append.1 hmem with hmm | hmm
      · exact amp_not_mem_escapeByte b (hbs b (List.mem_cons_self b bs2)) hmm
      · exact ih (fun x hx => hbs x (List.mem_cons_of_mem b hx)) hmm
  exact aux _ (utf8_lt_256 s)

theorem append_sep_inj (c : Char) : ∀ (a b r s : List Char), c ∉ a → c ∉ b →
    a ++ c :: r = b ++ c :: s → a = b ∧ r = s := by
  intro a
  induction a with
  | nil =>
    intro b r s _ha hb h
    cases b with
    | nil =>
      rw [List.nil_append, List.nil_append] at h
      injection h with _h1 h2
      exact ⟨rfl, h2⟩
    | cons b0 tb =>
      exfalso
      rw [List.nil_append, List.cons_append] at h
      injection h with h1 _h2
      exact hb (h1 ▸ List.mem_cons_self b0 tb)
  | cons a0 ta ih =>
    intro b r s ha hb h
    cases b with
    | nil =>
      exfalso
      rw [List.nil_append, List.cons_append] at h
      injection h with h1 _h2
      exact ha (h1 ▸ List.mem_cons_self a0 ta)
    | cons b0 tb =>
      simp only [List.cons_append] at h
      injection h with h1 h2
      have := ih tb r s (fun hx => ha (List.mem_cons_of_mem a0 hx))
        (fun hx => hb (List.mem_cons_of_mem b0 hx)) h2
      exact ⟨by rw [h1, this.1], this.2⟩

theorem joinAmp_map_inj (e1 e2 : String → String) : ∀ ks : List String,
    (∀ k ∈ ks, '&' ∉ (e1 k).data) → (∀ k ∈ ks, '&' ∉ (e2 k).data) →
    joinAmp (ks.map e1) = joinAmp (ks.map e2) → ∀ k ∈ ks, e1 k = e2 k := by
  intro ks
  induction ks with
  | nil =>
    intro _ _ _ k hk
    simp at hk
  | cons k1 ks2 ih =>
    cases ks2 with
    | nil =>
      intro _h1 _h2 heq k hk
      simp only [List.mem_singleton] at hk
      subst hk
      simpa [joinAmp] using heq
    | cons k2 ks3 =>
      intro h1 h2 heq k hk
      simp only [List.map_cons, joinAmp] at heq
      have hd := congrArg String.data heq
      simp only [String.data_append, List.append_assoc, List.singleton_append] at hd
      obtain ⟨hhead, htail⟩ := append_sep_inj '&' _ _ _ _
        (h1 k1 (List.mem_cons_self k1 _)) (h2 k1 (List.mem_cons_self k1 _)) hd
      rcases List.mem_cons.1 hk with rfl | hk2
      · exact String.ext hhead
      · exact ih (fun x hx => h1 x (List.mem_cons_of_mem k1 hx))
          (fun x hx => h2 x (List.mem_cons_of_mem k1 hx))
          (String.ext htail) k hk2

theorem entry_amp_free (fields : Fields) (k : String) :
    '&' ∉ (entryString fields k).data := by
  simp only [entryString, String.data_append]
  intro hmem
  rcases List.mem_append.1 hmem with hmm | hmm
  · rcases List.mem_append.1 hmm with hmm2 | hmm2
    · exact amp_not_mem_escape k hmm2
    · simp at hmm2
  · exact amp_not_mem_escape _ hmm

theorem entryString_values (fields fields' : Fields) (k : String)
    (h : entryString fields' k = entryString fields k) :
    (fields'.lookup k).getD "" = (fields.lookup k).getD "" := by
  have hd := congrArg String.data h
  simp only [entryString, String.data_append, List.append_assoc] at hd
  have h1 := List.append_cancel_left hd
  have h2 := List.append_cancel_left h1
  exact escape_inj _ _ (String.ext h2)

theorem lookup_some_of_mem_keys : ∀ (l : Fields) (k : String),
    k ∈ l.map Prod.fst → ∃ v, l.lookup k = some v := by
  intro l
  induction l with
  | nil =>
    intro k hk
    simp at hk
  | cons p t ih =>
    intro k hk
    cases hbeq : (k == p.fst) with
    | true =>
      refine ⟨p.snd, ?_⟩
      obtain ⟨k1, v1⟩ := p
      simp only [List.lookup, hbeq]
    | false =>
      have hk' : k ∈ p.fst :: t.map Prod.fst := by simpa using hk
      have hk2 : k ∈ t.map Prod.fst := by
        rcases List.mem_cons.1 hk' with h | h
        · exact absurd h (beq_eq_false_iff_ne.1 hbeq)
        · exact h
      obtain ⟨v, hv⟩ := ih k hk2
      refine ⟨v, ?_⟩
      obtain ⟨k1, v1⟩ := p
      simp only [List.lookup, hbeq, hv]

theorem fields_ext : ∀ (l2 l1 : Fields),
    l1.map Prod.fst = l2.map Prod.fst → (l2.map Prod.fst).Nodup →
    (∀ k ∈ l2.map Prod.fst, l1.lookup k = l2.lookup k) → l1 = l2 := by
  intro l2
  induction l2 with
  | nil =>
    intro l1 hk _ _
    simpa using List.map_eq_nil_iff.1 hk
  | cons p2 t2 ih =>
    intro l1 hk hnd hlook
    obtain ⟨k2, v2⟩ := p2
    cases l1 with
    | nil => simp at hk
    | cons p1 t1 =>
      obtain ⟨k1, v1⟩ := p1
      simp only [List.map_cons, List.cons.injEq] at hk
      obtain ⟨hkey, htail⟩ := hk
      subst hkey
      have hv : v1 = v2 := by
        have := hlook k1 (List.mem_cons_self _ _)
        simpa [List.lookup] using this
      have hnd2 : (t2.map Prod.fst).Nodup := (List.nodup_cons.1 hnd).2
      have hknotin : k1 ∉ t2.map Prod.fst := (List.nodup_cons.1 hnd).1
      have htl : t1 = t2 := by
        apply ih t1 htail hnd2
        intro k hkmem
        have hne : (k == k1) = false := by
          rw [beq_eq_false_iff_ne]
          intro hcontra
          exact hknotin (hcontra ▸ hkmem)
        have := hlook k (List.mem_cons_of_mem _ hkmem)
        simpa [List.lookup, hne] using this
      rw [hv, htl]

end Sig

/-- C3 amended: round-trip verification always succeeds; verification of a
received signature succeeds exactly when the SHA-512 digests of the two
signature base strings coincide; and the base string is injective in the
secret (for a fixed field map) and in the field values (for a fixed key
set) — so verifying after mutating a field value or changing the secret
returns false unless SHA-512 collides on the two distinct base strings. -/
theorem c3_amended_roundtrip_and_tamper_detection :
    ∀ (fields : Sig.Fields) (secret : String),
      Sig.verifySignature fields (Sig.generateSignature fields secret) secret = true ∧
      (∀ (fields' : Sig.Fields) (secret' : String),
        Sig.verifySignature fields' (Sig.generateSignature fields secret) secret' = true ↔
          Sha512.sha512hex (Sig.signatureBase fields' secret') =
            Sha512.sha512hex (Sig.signatureBase fields secret)) ∧
      (∀ secret' : String,
        Sig.signatureBase fields secret' = Sig.signatureBase fields secret →
        secret' = secret) ∧
      (∀ fields' : Sig.Fields,
        fields'.map Prod.fst = fields.map Prod.fst →
        (fields.map Prod.fst).Nodup →
        Sig.signatureBase fields' secret = Sig.signatureBase fields secret →
        fields' = fields) := by
  intro fields secret
  refine ⟨?_, ?_, ?_, ?_⟩
  · rw [Sig.verifySignature]
    exact beq_self_eq_true _
  · intro fields' secret'
    rw [Sig.verifySignature]
    exact beq_iff_eq
  · intro secret' h
    have hd := congrArg String.data h
    simp only [Sig.signatureBase, String.data_append] at hd
    exact String.ext (List.append_cancel_left hd)
  · intro fields' hk hnd heq
    have hq : Sig.queryString fields' = Sig.queryString fields := by
      have hd := congrArg String.data heq
      simp only [Sig.signatureBase, String.data_append] at hd
      exact String.ext (List.append_cancel_right hd)
    rw [Sig.queryString, Sig.queryString, hk] at hq
    have hpoint := Sig.joinAmp_map_inj (Sig.entryString fields') (Sig.entryString fields)
      (Sig.objectKeys (Sig.sortBy Sig.jsLt (fields.map Prod.fst)))
      (fun k _ => Sig.entry_amp_free fields' k)
      (fun k _ => Sig.entry_amp_free fields k) hq
    have hcover : ∀ k, k ∈ fields.map Prod.fst →
        k ∈ Sig.objectKeys (Sig.sortBy Sig.jsLt (fields.map Prod.fst)) := by
      intro k hk2
      have hks : k ∈ Sig.sortBy Sig.jsLt (fields.map Prod.fst) := Sig.mem_sortBy.2 hk2
      rw [Sig.objectKeys]
      rcases hidx : Sig.isArrayIndex k with hfalse | htrue
      · exact List.mem_append.2 (Or.inr (List.mem_filter.2 ⟨hks, by simp [hidx]⟩))
      · exact List.mem_append.2
          (Or.inl (Sig.mem_sortBy.2 (List.mem_filter.2 ⟨hks, by simp [hidx]⟩)))
    apply Sig.fields_ext fields fields' hk hnd
    intro k hkmem
    obtain ⟨v', hv'⟩ := Sig.lookup_some_of_mem_keys fields' k (by rw [hk]; exact hkmem)
    obtain ⟨v, hv⟩ := Sig.lookup_some_of_mem_keys fields k hkmem
    have hgetd := Sig.entryString_values fields fields' k (hpoint k (hcover k hkmem))
    rw [hv', hv] at hgetd
    simp only [Option.getD_some] at hgetd
    rw [hv', hv, hgetd]

theorem c3_amended_roundtrip_and_tamper_detection_witness :
    Sig.verifySignature [("amount", "100.00")]
      (Sig.generateSignature [("amount", "100.00")] "s1") "s1" = true ∧
    (Sig.verifySignature [("amount", "100.00")]
      (Sig.generateSignature [("amount", "100.00")] "s1") "s2" = true ↔
        Sha512.sha512hex (Sig.signatureBase [("amount", "100.00")] "s2") =
          Sha512.sha512hex (Sig.signatureBase [("amount", "100.00")] "s1")) ∧
    ("s1" : String) = "s1" ∧
    ([("amount", "100.00")] : Sig.Fields) = [("amount", "100.00")] :=
  ⟨(c3_amended_roundtrip_and_tamper_detection [("amount", "100.00")] "s1").1,
   (c3_amended_roundtrip_and_tamper_detection [("amount", "100.00")] "s1").2.1
     [("amount", "100.00")] "s2",
   (c3_amended_roundtrip_and_tamper_detection [("amount", "100.00")] "s1").2.2.1
     "s1" rfl,
   (c3_amended_roundtrip_and_tamper_detection [("amount", "100.00")] "s1").2.2.2
     [("amount", "100.00")] rfl (by decide) rfl⟩
